import Mathlib

/-!
Verification of the fr24-discord-bot polling core against its specification.

This file gives a shallow embedding, in Lean 4, of the parts of
`src/poller.py` and `src/fr24/client.py` that the specification's testable
properties talk about:

* the flight-event record and the ground/stationary classifiers,
* the arrival-eligibility heuristic for airport subscriptions,
* flight-identity derivation and the notification dedup protocol of
  `_process_flights`,
* the mention-list truncation of `_build_notification_content`,
* the `_RateLimiter` spacing/cooldown primitive,
* the multi-key pool: key selection, parking, pool-wide pacing,
* the batch-with-fallback request ladder of `poll_once`.

Modelling conventions: Python floats (monotonic/epoch timestamps, km,
seconds) are modelled as exact rationals `ℚ`; Python `None` becomes
`Option`; dynamic provider dicts become a record of the exact keys the
code reads, each an `Option` holding the already-`float()`-parsed value
(so "absent key" and "non-numeric value" coincide, which is how the code
treats them via `_parse_float`).
-/

namespace FR24

/-- A normalized provider flight record: one `Option` field per dict key the
poller reads.  Numeric fields hold the result of `_parse_float`. The `eta`
field holds the result of `_extract_eta`/`_parse_eta` (an ISO-8601 parse),
modelled as UTC epoch seconds. -/
structure Flight where
  flight_id : Option String := none
  id : Option String := none
  fr24_id : Option String := none
  uuid : Option String := none
  callsign : Option String := none
  flight_number : Option String := none
  origin : Option String := none
  destination : Option String := none
  timestamp : Option String := none
  dest_iata : Option String := none
  destination_iata : Option String := none
  dest_icao : Option String := none
  destination_icao : Option String := none
  dest : Option String := none
  orig_iata : Option String := none
  origin_iata : Option String := none
  orig_icao : Option String := none
  origin_icao : Option String := none
  orig : Option String := none
  altitude : Option ℚ := none
  altitude_ft : Option ℚ := none
  alt : Option ℚ := none
  ground_speed : Option ℚ := none
  speed : Option ℚ := none
  speed_kts : Option ℚ := none
  gspeed : Option ℚ := none
  vspeed : Option ℚ := none
  vertical_speed : Option ℚ := none
  vertical_speed_fpm : Option ℚ := none
  lat : Option ℚ := none
  lon : Option ℚ := none
  registration : Option String := none
  reg : Option String := none
  eta : Option ℚ := none
  aircraft_type : Option String := none
  aircraft : Option String := none
  model : Option String := none
deriving Repr, DecidableEq

/-- Python truthiness of an optional string: `None` and `""` are falsy. -/
def strTruthy : Option String → Bool
  | none => false
  | some s => !(s = "")

/-- Python `str.strip()`: drop whitespace from both ends (character-list
based, so it evaluates inside the kernel). -/
def trimStr (s : String) : String :=
  String.mk (((s.data.dropWhile Char.isWhitespace).reverse.dropWhile
    Char.isWhitespace).reverse)

/-- Python `str.upper()` on the code points. -/
def upperStr (s : String) : String := String.mk (s.data.map Char.toUpper)

/-- Python `str.lower()` on the code points. -/
def lowerStr (s : String) : String := String.mk (s.data.map Char.toLower)

/-- Normalization `str(value).strip().upper()` applied to code fields. -/
def normCode (s : String) : String := upperStr (trimStr s)

/-- `_extract_destination_codes`: collect the normalized, non-empty
destination codes over the fixed key tuple (a Python `set`; modelled as a
deduplicated list in key order). -/
def extractDestinationCodes (f : Flight) : List String :=
  (([f.dest_iata, f.destination_iata, f.dest_icao, f.destination_icao,
     f.destination, f.dest].filterMap id).filter
      (fun v => !(v = ""))).map normCode
  |>.filter (fun c => !(c = "")) |>.dedup

/-- `_extract_origin_codes`: same over the origin key tuple. -/
def extractOriginCodes (f : Flight) : List String :=
  (([f.orig_iata, f.origin_iata, f.orig_icao, f.origin_icao,
     f.origin, f.orig].filterMap id).filter
      (fun v => !(v = ""))).map normCode
  |>.filter (fun c => !(c = "")) |>.dedup

/-- `_extract_aircraft_code`: the first truthy value among the aircraft-type
keys, normalized; `None` if all are falsy. -/
def extractAircraftCode (f : Flight) : Option String :=
  [f.aircraft_type, f.aircraft, f.model].foldr
    (fun v acc =>
      match v with
      | some s => if !(normCode s = "") then some (normCode s) else acc
      | none => acc)
    none

/-- `_get_first_numeric(flight, keys)`: first parseable numeric among the
given (already parsed) fields. -/
def getFirstNumeric (vals : List (Option ℚ)) : Option ℚ :=
  vals.foldr (fun v acc => match v with | some q => some q | none => acc) none

/-- The altitude of a flight as the code reads it:
`_get_first_numeric(flight, ("altitude", "altitude_ft", "alt"))`. -/
def altitudeVal (f : Flight) : Option ℚ :=
  getFirstNumeric [f.altitude, f.altitude_ft, f.alt]

/-- The ground speed of a flight as the code reads it:
`_get_first_numeric(flight, ("ground_speed", "speed", "speed_kts", "gspeed"))`. -/
def speedVal (f : Flight) : Option ℚ :=
  getFirstNumeric [f.ground_speed, f.speed, f.speed_kts, f.gspeed]

/-- The vertical speed of a flight as the code reads it. -/
def vspeedVal (f : Flight) : Option ℚ :=
  getFirstNumeric [f.vspeed, f.vertical_speed, f.vertical_speed_fpm]

/-- `_is_on_ground_like`: altitude and speed must both be present, with
altitude ≤ 200 ft, speed ≤ 30 kt, and |vertical speed| ≤ 200 fpm when
present. -/
def isOnGroundLike (f : Flight) : Bool :=
  match altitudeVal f, speedVal f with
  | some a, some s =>
    if 200 < a ∨ 30 < s then false
    else
      match vspeedVal f with
      | some v => if 200 < |v| then false else true
      | none => true
  | _, _ => false

/-- `_is_stationary_zero`: altitude absent-or-zero and speed absent-or-zero. -/
def isStationaryZero (f : Flight) : Bool :=
  let altitudeZero :=
    match altitudeVal f with
    | none => true
    | some a => a = 0
  let speedZero :=
    match speedVal f with
    | none => true
    | some s => s = 0
  altitudeZero && speedZero

/-- `_get_flight_position`: both lat and lon must parse. -/
def getFlightPosition (f : Flight) : Option (ℚ × ℚ) :=
  match f.lat, f.lon with
  | some la, some lo => some (la, lo)
  | _, _ => none

/-- `_has_registration`: a truthy value under `registration` or `reg`. -/
def hasRegistration (f : Flight) : Bool :=
  strTruthy f.registration || strTruthy f.reg

/-- An airport reference row from the reference-data collaborator
(`resolve_airport`-style lookup result). -/
structure AirportRef where
  icao : Option String := none
  iata : Option String := none
  lat : Option ℚ := none
  lon : Option ℚ := none
deriving Repr, DecidableEq

/-- The reference-data collaborator, reduced to the two lookups the poller
uses (an external interface per the spec, modelled as pure functions). -/
structure ReferenceData where
  get_airport_by_iata : String → Option AirportRef
  get_airport : String → Option AirportRef

/-- `_resolve_airport_from_codes`: try each code; 3-letter codes via the
IATA lookup, 4-letter via the ICAO lookup; first hit wins. -/
def resolveAirportFromCodes (rd : ReferenceData) : List String → Option AirportRef
  | [] => none
  | c :: rest =>
    let ref :=
      if c.length = 3 then rd.get_airport_by_iata c
      else if c.length = 4 then rd.get_airport c
      else none
    match ref with
    | some r => some r
    | none => resolveAirportFromCodes rd rest

/-- `_extract_eta`: the parsed ETA of the flight (see `Flight.eta`). -/
def extractEta (f : Flight) : Option ℚ := f.eta

/-- First turnaround test of `_is_airport_alert_eligible`: destination and
origin code sets both non-empty and intersecting. -/
def turnaroundByCodes (f : Flight) : Bool :=
  let destCodes := extractDestinationCodes f
  let originCodes := extractOriginCodes f
  !(destCodes = []) && !(originCodes = []) &&
    destCodes.any (fun c => originCodes.contains c)

/-- Second turnaround test: both endpoint airports resolve and carry the
same ICAO (Python `dest_ref.icao == origin_ref.icao`, where `None == None`
also counts as equal). -/
def turnaroundByRefs (rd : ReferenceData) (f : Flight) : Bool :=
  match resolveAirportFromCodes rd (extractDestinationCodes f),
        resolveAirportFromCodes rd (extractOriginCodes f) with
  | some dr, some orr => dr.icao == orr.icao
  | _, _ => false

/-- `_is_airport_alert_eligible`, with the great-circle distance function
`_haversine_km` passed as the parameter `hav` (the heuristic reads it only
through the comparison against the 10 km threshold; the trigonometric
haversine itself has no exact rational form).  `now` is the UTC epoch time
used for the ETA comparison. -/
def isAirportAlertEligible (hav : ℚ → ℚ → ℚ → ℚ → ℚ) (rd : ReferenceData)
    (now : ℚ) (f : Flight) : Bool :=
  if turnaroundByCodes f then
    !(isStationaryZero f)
  else if turnaroundByRefs rd f then
    !(isStationaryZero f)
  else if !(isOnGroundLike f) then
    true
  else
    match getFlightPosition f, resolveAirportFromCodes rd (extractDestinationCodes f) with
    | some pos, some dr =>
      match dr.lat, dr.lon with
      | some rla, some rlo =>
        let distanceKm := hav pos.1 pos.2 rla rlo
        if 10 < distanceKm then
          true
        else
          match extractEta f with
          | some eta => if 30 * 60 ≤ eta - now then true else false
          | none => false
      | _, _ => true
    | _, _ => true

/-- A concrete airport reference row used to exercise the eligibility
heuristic at its numeric boundaries. -/
def bdryRef : AirportRef :=
  { icao := some "AAAA", iata := some "AAA", lat := some 52, lon := some 21 }

/-- Concrete reference data resolving only the IATA code `AAA`. -/
def bdryRD : ReferenceData :=
  { get_airport_by_iata := fun c => if c = "AAA" then some bdryRef else none
    get_airport := fun _ => none }

/-- A concrete on-ground flight inbound to `AAA` with no origin data and no
ETA: not a turnaround, on-ground-like, position present. -/
def bdryFlight : Flight :=
  { dest_iata := some "AAA", altitude := some 0, speed := some 0,
    lat := some 52, lon := some 21 }

/-! ### Notification content builder (`_build_notification_content`) -/

/-- Lexicographic comparison of code-point lists (Python string `<=`). -/
def charListLe : List Char → List Char → Bool
  | [], _ => true
  | _ :: _, [] => false
  | a :: as, b :: bs =>
    if a < b then true else if b < a then false else charListLe as bs

/-- Python string comparison used by `sorted`. -/
def strLe (a b : String) : Bool := charListLe a.data b.data

/-- Stable insertion into a sorted list. -/
def insertSorted (x : String) : List String → List String
  | [] => [x]
  | y :: ys => if strLe x y then x :: y :: ys else y :: insertSorted x ys

/-- Python `sorted` on strings (insertion sort; same sorted result). -/
def sortStrings (l : List String) : List String := l.foldr insertSorted []

/-- Python `sorted(set(xs))`. -/
def sortedSet (xs : List String) : List String := sortStrings xs.dedup

/-- Python slicing `s[:n]`. -/
def strTake (s : String) (n : Nat) : String := String.mk (s.data.take n)

/-- The Discord mention markup for one user id. -/
def mentionFor (uid : String) : String := "<@" ++ uid ++ ">"

/-- The base line `f"Flight update for {code}"`. -/
def contentBase (code : String) : String := "Flight update for " ++ code

/-- The mention list `[f"<@{uid}>" for uid in sorted(set(user_ids))]`. -/
def mentionsOf (user_ids : List String) : List String :=
  (sortedSet user_ids).map mentionFor

/-- The untruncated line `f"{' '.join(mentions)} - {base}"`. -/
def fullLine (user_ids : List String) (code : String) : String :=
  String.intercalate " " (mentionsOf user_ids) ++ " - " ++ contentBase code

/-- The suffix appended after the kept mentions: either
`" and {remaining} more - {base}"` or `" - {base}"`. -/
def suffixFor (base : String) (remaining : Nat) : String :=
  if 0 < remaining then " and " ++ toString remaining ++ " more - " ++ base
  else " - " ++ base

/-- The message text formed from a kept mention list (join, then the suffix
for the number of mentions left out of `total`). -/
def contentFor (base : String) (total : Nat) (kept : List String) : String :=
  String.intercalate " " kept ++ suffixFor base (total - kept.length)

/-- The greedy kept-prefix loop of `_build_notification_content`: keep
appending mentions while the candidate line (kept mentions, current
mention, suffix) still fits in `limit`; stop at the first overflow. -/
def keptLoop (limit : Nat) (base : String) (total : Nat) :
    List String → Nat → List String → List String
  | [], _, kept => kept
  | m :: rest, idx, kept =>
    if limit <
        (String.intercalate " " (kept ++ [m])
          ++ suffixFor base (total - (idx + 1))).length then kept
    else keptLoop limit base total rest (idx + 1) (kept ++ [m])

/-- The kept mention prefix for a given input. -/
def keptOf (user_ids : List String) (code : String) (limit : Nat) : List String :=
  keptLoop limit (contentBase code) (mentionsOf user_ids).length
    (mentionsOf user_ids) 0 []

/-- `_build_notification_content(user_ids, code, limit)`. -/
def buildNotificationContent (user_ids : List String) (code : String)
    (limit : Nat) : String :=
  if user_ids = [] then contentBase code
  else if (String.intercalate " " (mentionsOf user_ids) ++ " - "
      ++ contentBase code).length ≤ limit then
    String.intercalate " " (mentionsOf user_ids) ++ " - " ++ contentBase code
  else if keptOf user_ids code limit = [] then contentBase code
  else if limit < (contentFor (contentBase code) (mentionsOf user_ids).length
      (keptOf user_ids code limit)).length then
    strTake (contentFor (contentBase code) (mentionsOf user_ids).length
      (keptOf user_ids code limit)) limit
  else
    contentFor (contentBase code) (mentionsOf user_ids).length
      (keptOf user_ids code limit)

/-! ### Notification dedup protocol (`_process_flights`) -/

/-- The all-absent flight record, standing for a falsy (empty) provider
dict, which `_process_flights` skips up front. -/
def emptyFlight : Flight := {}

/-- Python truthiness of the first identifier found among the explicit id
keys (`_build_flight_id`, first branch). -/
def firstTruthyStr : List (Option String) → Option String
  | [] => none
  | v :: rest =>
    match v with
    | some s => if !(s = "") then some s else firstTruthyStr rest
    | none => firstTruthyStr rest

/-- `_build_flight_id`: an explicit identifier field; else a pipe-joined
composite of the non-empty identity parts; else the canonical-payload
digest.  The SHA-256 short hex digest of the JSON-serialized record has no
shallow arithmetic embedding, so it is passed in as the parameter
`digest` (any function of the record). -/
def buildFlightId (digest : Flight → String) (f : Flight) : String :=
  match firstTruthyStr [f.flight_id, f.id, f.fr24_id, f.uuid] with
  | some v => v
  | none =>
    match ([f.callsign, f.flight_number, f.origin, f.destination,
        f.timestamp].filterMap id).filter (fun s => !(s = "")) with
    | [] => digest f
    | parts => String.intercalate "|" parts

/-- A subscription row as the poller reads it. -/
structure Sub where
  id : Nat
  guild_id : String
  user_id : String
  type : String
  code : String
deriving Repr, DecidableEq

/-- The store state visible to `_process_flights`, plus the observation
trace this development reasons about: `ledger` is the persistent
NotificationLogEntry table (pairs `(subscription_id, flight_identity)`),
`logCalls` records each `log_notifications` invocation, and
`sendAttempts` counts `_send_notification` calls (its success or failure
is decided by an oracle indexed by this counter). -/
structure PollState where
  ledger : List (Nat × String)
  logCalls : List (List Nat × String)
  sendAttempts : Nat
deriving Repr, DecidableEq

/-- `db.fetch_logged_subscription_ids(flight_id, subscription_ids)`: the
subset of the given ids already logged against this identity. -/
def fetchLoggedSubscriptionIds (ledger : List (Nat × String)) (fid : String)
    (ids : List Nat) : List Nat :=
  ids.filter (fun i => ledger.contains (i, fid))

/-- `to_notify`: the guild subscriptions whose id is not in the
already-logged set for this flight identity. -/
def toNotifySubs (ledger : List (Nat × String)) (fid : String)
    (guildSubs : List Sub) : List Sub :=
  guildSubs.filter (fun s =>
    !((fetchLoggedSubscriptionIds ledger fid
        (guildSubs.map (fun x => x.id))).contains s.id))

/-- The per-guild body of `_process_flights`: resolve the guild's notify
channel (skip if unset), fetch the already-logged ids, send to the
not-yet-notified subscriptions, and log exactly those ids when the send
reports success; nothing is written when the send fails. -/
def processGuildFlight (oracle : Nat → Bool) (channelMap : String → Option String)
    (fid : String) (guildId : String) (guildSubs : List Sub)
    (st : PollState) : PollState :=
  if !(strTruthy (channelMap guildId)) then st
  else if toNotifySubs st.ledger fid guildSubs = [] then st
  else if oracle st.sendAttempts then
    { ledger := st.ledger
        ++ (toNotifySubs st.ledger fid guildSubs).map (fun s => (s.id, fid)),
      logCalls := st.logCalls
        ++ [((toNotifySubs st.ledger fid guildSubs).map (fun s => s.id), fid)],
      sendAttempts := st.sendAttempts + 1 }
  else
    { st with sendAttempts := st.sendAttempts + 1 }

/-- First-occurrence deduplication (Python dict key order for
`subs_by_guild`). -/
def dedupFirst (seen : List String) : List String → List String
  | [] => []
  | x :: xs =>
    if seen.contains x then dedupFirst seen xs
    else x :: dedupFirst (seen ++ [x]) xs

/-- The guild ids of a subscription list, in first-seen order. -/
def guildsOf (subs : List Sub) : List String :=
  dedupFirst [] (subs.map (fun s => s.guild_id))

/-- The subscriptions of one guild. -/
def subsOfGuild (subs : List Sub) (g : String) : List Sub :=
  subs.filter (fun s => s.guild_id == g)

/-- The per-flight body of `_process_flights`: skip falsy records, apply
the aircraft-kind registration/stationary filters and the airport-kind
eligibility filter, derive the flight identity, then run the per-guild
notification protocol for every guild sharing the group. -/
def processOneFlight (oracle : Nat → Bool) (digest : Flight → String)
    (hav : ℚ → ℚ → ℚ → ℚ → ℚ) (rd : ReferenceData) (now : ℚ)
    (channelMap : String → Option String) (subs : List Sub)
    (subType : String) (st : PollState) (f : Flight) : PollState :=
  if f = emptyFlight then st
  else if subType = "aircraft" && !(hasRegistration f) then st
  else if subType = "aircraft" && isStationaryZero f then st
  else if subType = "airport" && !(isAirportAlertEligible hav rd now f) then st
  else if buildFlightId digest f = "" then st
  else
    (guildsOf subs).foldl
      (fun acc g =>
        processGuildFlight oracle channelMap (buildFlightId digest f) g
          (subsOfGuild subs g) acc)
      st

/-- `_process_flights(...)` over one matched-flight list. -/
def processFlights (oracle : Nat → Bool) (digest : Flight → String)
    (hav : ℚ → ℚ → ℚ → ℚ → ℚ) (rd : ReferenceData) (now : ℚ)
    (channelMap : String → Option String) (subs : List Sub)
    (flights : List Flight) (subType : String) (st : PollState) : PollState :=
  if flights = [] then st
  else
    flights.foldl
      (processOneFlight oracle digest hav rd now channelMap subs subType) st

/-- One `_process_flights` invocation as scheduled by a poll cycle: a
subscription group, its matched flights, and the group kind. -/
structure CycleReq where
  subscriptions : List Sub
  flights : List Flight
  subType : String
deriving Repr

/-- Any number of poll cycles (and process restarts: the ledger argument
persists) running the notification protocol. -/
def runCycles (oracle : Nat → Bool) (digest : Flight → String)
    (hav : ℚ → ℚ → ℚ → ℚ → ℚ) (rd : ReferenceData) (now : ℚ)
    (channelMap : String → Option String) (cycles : List CycleReq)
    (st : PollState) : PollState :=
  cycles.foldl
    (fun acc c =>
      processFlights oracle digest hav rd now channelMap c.subscriptions
        c.flights c.subType acc)
    st

/-- How many `log_notifications` invocations in the trace contain the pair
`(s, fid)`. -/
def logsFor (st : PollState) (s : Nat) (fid : String) : Nat :=
  st.logCalls.countP (fun c => c.2 == fid && c.1.contains s)

/-- The dedup invariant for one `(subscription, identity)` pair: if the
pair is not in the ledger it was never logged, and it is never logged
twice. -/
def LedgerInv (s : Nat) (fid : String) (st : PollState) : Prop :=
  (st.ledger.contains (s, fid) = false → logsFor st s fid = 0)
  ∧ logsFor st s fid ≤ 1

/-! ### `_RateLimiter`: per-credential spacing, window and cooldown -/

/-- `_RateLimiter` state (monotonic timestamps as exact rationals). -/
structure RateLimiter where
  max_requests : Nat
  window_seconds : ℚ
  min_interval : ℚ
  next_at : ℚ
  cooldown_until : ℚ
  recent : List ℚ
deriving Repr, DecidableEq

/-- `_RateLimiter.__init__(max_requests_per_min, base_spacing_padding_seconds=0.5)`:
`min_interval = window/max(1, m) + padding`. -/
def RateLimiter.init (max_requests_per_min : Nat) (padding : ℚ) : RateLimiter :=
  { max_requests := max 1 max_requests_per_min,
    window_seconds := 60,
    min_interval := 60 / ((max 1 max_requests_per_min : Nat) : ℚ) + padding,
    next_at := 0,
    cooldown_until := 0,
    recent := [] }

/-- `_prune(now)`: pop leading timestamps at or before `now - window`. -/
def pruneRecent (window : ℚ) (now : ℚ) (recent : List ℚ) : List ℚ :=
  recent.dropWhile (fun t => decide (t ≤ now - window))

/-- `snapshot()["next_in"]`. -/
def RateLimiter.nextIn (l : RateLimiter) (now : ℚ) : ℚ := max 0 (l.next_at - now)

/-- `snapshot()["cooldown_in"]`. -/
def RateLimiter.cooldownIn (l : RateLimiter) (now : ℚ) : ℚ :=
  max 0 (l.cooldown_until - now)

/-- `wait()` as a pure step: given the call time, return the moment the
permit is granted (after sleeping through cooldown, the sliding window and
the spacing gap) together with the updated limiter. -/
def RateLimiter.waitStep (l : RateLimiter) (now : ℚ) : ℚ × RateLimiter :=
  let n1 := max now l.cooldown_until
  let r1 := pruneRecent l.window_seconds n1 l.recent
  let p :=
    if l.max_requests ≤ r1.length then
      if 0 < r1.headD 0 + l.window_seconds - n1 then
        (r1.headD 0 + l.window_seconds,
          pruneRecent l.window_seconds (r1.headD 0 + l.window_seconds) r1)
      else (n1, r1)
    else (n1, r1)
  let g := max p.1 l.next_at
  (g, { l with next_at := g + l.min_interval, recent := p.2 ++ [g] })

/-- `cooldown(seconds)`: push the cooldown deadline and the next-permit
time forward, never backward (the two sequential guarded updates of the
source written as their four joint cases; `min_interval` and the guard
values are unaffected by the first update). -/
def RateLimiter.cooldown (l : RateLimiter) (now seconds : ℚ) : RateLimiter :=
  if seconds ≤ 0 then l
  else if l.cooldown_until < now + seconds then
    if l.next_at < now + seconds then
      { l with cooldown_until := now + seconds,
               next_at := now + seconds + l.min_interval }
    else { l with cooldown_until := now + seconds }
  else if l.next_at < now + seconds then
    { l with next_at := now + seconds + l.min_interval }
  else l

/-- A sequential trace of limiter operations: permits requested by the
poller interleaved with rate-limit cooldowns. -/
inductive LimiterOp where
  | wait (now : ℚ)
  | cool (now : ℚ) (seconds : ℚ)
deriving Repr

/-- Run a trace, collecting the granted permit times. -/
def runLimiter (l : RateLimiter) : List LimiterOp → List ℚ × RateLimiter
  | [] => ([], l)
  | LimiterOp.wait now :: rest =>
    let s := l.waitStep now
    let r := runLimiter s.2 rest
    (s.1 :: r.1, r.2)
  | LimiterOp.cool now secs :: rest => runLimiter (l.cooldown now secs) rest

/-! ### `Fr24Client`: credential pool, selection, parking, pool pacing -/

/-- `_SpacingLimiter` (the pool-wide pacing primitive). -/
structure SpacingLimiter where
  min_interval : ℚ
  next_at : ℚ
deriving Repr, DecidableEq

/-- `_KeyState`: one credential of the pool. -/
structure KeyState where
  index : Nat
  suffix : String
  limiter : RateLimiter
  requests : Nat
  last_used : ℚ
  parked_until : Option ℚ
  parked_reason : Option String
deriving Repr, DecidableEq

/-- The pool-relevant state of `Fr24Client`. -/
structure Pool where
  keys : List KeyState
  max_requests_per_min : Nat
  rr_index : Nat
  pool_limiter : Option SpacingLimiter
deriving Repr, DecidableEq

/-- A default key (used only as the out-of-range fallback of indexed list
reads). -/
def dummyKey : KeyState :=
  { index := 0, suffix := "", limiter := RateLimiter.init 1 (1/2), requests := 0,
    last_used := 0, parked_until := none, parked_reason := none }

/-- `Fr24Client.__init__(api_tokens, max_requests_per_min)` with `numKeys`
credentials: fresh identical limiters, no parks, round-robin cursor at 0,
and a pool-wide spacing limiter of `per_key_interval / key_count` iff more
than one key exists. -/
def Pool.init (numKeys : Nat) (max_requests_per_min : Nat) : Pool :=
  let keys := (List.range numKeys).map (fun i =>
    { index := i, suffix := toString i,
      limiter := RateLimiter.init (max 1 max_requests_per_min) (1/2),
      requests := 0, last_used := 0,
      parked_until := none, parked_reason := none : KeyState })
  { keys := keys,
    max_requests_per_min := max 1 max_requests_per_min,
    rr_index := 0,
    pool_limiter :=
      if 1 < numKeys then
        some ⟨(keys.headD dummyKey).limiter.min_interval / numKeys, 0⟩
      else none }

/-- Python truthiness of `parked_until` (a float or `None`; `0.0` is
falsy). -/
def parkedTruthy : Option ℚ → Bool
  | none => false
  | some t => !(t = 0)

/-- `key.parked_until and key.parked_until > now` (the strict-park test of
`_select_key` and `_next_unpark_in_locked`). -/
def KeyState.parkedNow (k : KeyState) (now : ℚ) : Bool :=
  match k.parked_until with
  | none => false
  | some t => !(t = 0) && decide (now < t)

/-- `not key.parked_until or key.parked_until <= now` (the active test of
`_active_key_count_locked`). -/
def KeyState.isActive (k : KeyState) (now : ℚ) : Bool :=
  match k.parked_until with
  | none => true
  | some t => (t = 0) || decide (t ≤ now)

/-- `_active_key_count_locked(now)`. -/
def activeKeyCountLocked (now : ℚ) (keys : List KeyState) : Nat :=
  keys.countP (fun k => k.isActive now)

/-- `_next_unpark_in_locked(now)`: time until the soonest strict park
expires. -/
def nextUnparkInLocked (now : ℚ) (keys : List KeyState) : Option ℚ :=
  let candidates := keys.filterMap (fun k =>
    match k.parked_until with
    | some t => if !(t = 0) && decide (now < t) then some t else none
    | none => none)
  match candidates.min? with
  | some m => some (max 0 (m - now))
  | none => none

/-- The per-key body of `_clear_expired_parks_locked`: clear a park whose
(truthy) deadline has passed, reporting whether this key changed. -/
def clearKeyStep (now : ℚ) (k : KeyState) : KeyState × Bool :=
  match k.parked_until with
  | some t =>
    if !(t = 0) && decide (t ≤ now) then
      ({ k with parked_until := none, parked_reason := none }, true)
    else (k, false)
  | none => (k, false)

/-- `_clear_expired_parks_locked(now)`: clear parks whose (truthy) deadline
has passed; report whether anything changed. -/
def clearExpiredParks (now : ℚ) (keys : List KeyState) : List KeyState × Bool :=
  ((keys.map (clearKeyStep now)).map (fun p => p.1),
   (keys.map (clearKeyStep now)).any (fun p => p.2))

/-- `_refresh_pool_limiter_locked(active_count)`: disable the pool limiter
at one or fewer active keys, else install a fresh spacing limiter of
`per_key_interval / active_count`. -/
def refreshPoolLimiterLocked (pool : Pool) (active_count : Nat) : Pool :=
  if active_count ≤ 1 then { pool with pool_limiter := none }
  else
    { pool with
      pool_limiter := some ⟨(pool.keys.headD dummyKey).limiter.min_interval / active_count, 0⟩ }

/-- The wait a non-parked key reports during selection:
`max(snapshot["next_in"], snapshot["cooldown_in"])`. -/
def keyWaitFor (k : KeyState) (now : ℚ) : ℚ :=
  max (k.limiter.nextIn now) (k.limiter.cooldownIn now)

/-- The result of a `_select_key` call.  `ok` is the `return selected,
best_wait` the source text intends but never reaches: before returning,
the active path calls `self._format_key_statuses(statuses, now)` on a
`@staticmethod` that itself declares a `self` parameter, so with only two
arguments supplied Python raises `TypeError` on every selection that
found an active credential; `typeError` models that exception. -/
inductive SelectResult where
  | ok (index : Nat)
  | noActiveKeys (retryAfter : Option ℚ)
  | typeError
deriving Repr, DecidableEq

/-- The per-key status rows of `_select_key`: strictly parked keys report
an infinite wait (modelled by the `Bool` flag, which the tie scan never
accepts); active keys report `max(next_in, cooldown_in)`. -/
def selectStatuses (now : ℚ) (keys1 : List KeyState) : List (Bool × ℚ) :=
  keys1.map (fun k => (k.parkedNow now, keyWaitFor k now))

/-- The candidate waits of the non-parked keys. -/
def selectWaits (statuses : List (Bool × ℚ)) : List ℚ :=
  statuses.filterMap (fun st => if st.1 then none else some st.2)

/-- The round-robin tie scan of `_select_key`: from the cursor, the first
key within the 1 ms tolerance of the best wait. -/
def selectScan (rr : Nat) (statuses : List (Bool × ℚ)) (K : Nat) (best : ℚ) :
    Option Nat :=
  (List.range K).findSome? (fun offset =>
    if !((statuses.getD ((rr + offset) % K) (true, 0)).1)
        && decide (|(statuses.getD ((rr + offset) % K) (true, 0)).2 - best|
          ≤ 1 / 1000)
    then some ((rr + offset) % K) else none)

/-- `_select_key()`: clear expired parks, snapshot each key, take the
smallest wait among non-parked keys (raising `NoActiveKeysError` when
none remain, refreshing the pool limiter if the sweep changed anything),
scan from the round-robin cursor and advance the cursor past the
selection — and then, still before returning, raise `TypeError` at the
unconditional `self._format_key_statuses(statuses, now)` debug call (a
`@staticmethod` mis-declared with a `self` parameter).  The sweep and the
cursor advance are mutations that precede the raise and persist. -/
def selectKey (now : ℚ) (pool : Pool) : SelectResult × Pool :=
  match (selectWaits (selectStatuses now (clearExpiredParks now pool.keys).1)).min? with
  | none =>
    (SelectResult.noActiveKeys
        (nextUnparkInLocked now (clearExpiredParks now pool.keys).1),
     if (clearExpiredParks now pool.keys).2 then
       refreshPoolLimiterLocked
         { pool with keys := (clearExpiredParks now pool.keys).1 } 0
     else { pool with keys := (clearExpiredParks now pool.keys).1 })
  | some best =>
    (SelectResult.typeError,
     { pool with
       keys := (clearExpiredParks now pool.keys).1,
       rr_index :=
         ((selectScan pool.rr_index
            (selectStatuses now (clearExpiredParks now pool.keys).1)
            (clearExpiredParks now pool.keys).1.length best).getD 0 + 1)
           % (clearExpiredParks now pool.keys).1.length })

/-- A sequence of `_select_key` calls at the given times, collecting each
result. -/
def runSelects (pool : Pool) : List ℚ → List SelectResult × Pool
  | [] => ([], pool)
  | now :: rest =>
    let s := selectKey now pool
    let r := runSelects s.2 rest
    (s.1 :: r.1, r.2)

/-- `park_key_by_index(index, until_epoch, reason)`. -/
def parkedKeysOf (pool : Pool) (index : Nat) (untilEpoch : ℚ)
    (reason : Option String) (now : ℚ) : List KeyState :=
  ((clearExpiredParks now pool.keys).1).set index
    { (clearExpiredParks now pool.keys).1.getD index dummyKey with
      parked_until := some (max untilEpoch now), parked_reason := reason }

/-- `park_key_by_index(index, until_epoch, reason)`: after the expired-park
sweep, park the key until `max(until_epoch, now)` and refresh the pool
limiter iff the active count changed. -/
def parkKeyByIndex (pool : Pool) (index : Nat) (untilEpoch : ℚ)
    (reason : Option String) (now : ℚ) : Bool × Pool :=
  if pool.keys.length ≤ index then (false, pool)
  else
    (true,
      if activeKeyCountLocked now (parkedKeysOf pool index untilEpoch reason now)
          ≠ activeKeyCountLocked now (clearExpiredParks now pool.keys).1 then
        refreshPoolLimiterLocked
          { pool with keys := parkedKeysOf pool index untilEpoch reason now }
          (activeKeyCountLocked now (parkedKeysOf pool index untilEpoch reason now))
      else { pool with keys := parkedKeysOf pool index untilEpoch reason now })

/-- The key list after `unpark_key_by_index` resets the indexed key. -/
def unparkedKeysOf (pool : Pool) (index : Nat) (now : ℚ) : List KeyState :=
  ((clearExpiredParks now pool.keys).1).set index
    { (clearExpiredParks now pool.keys).1.getD index dummyKey with
      parked_until := none, parked_reason := none }

/-- `unpark_key_by_index(index)`. -/
def unparkKeyByIndex (pool : Pool) (index : Nat) (now : ℚ) : Bool × Pool :=
  if pool.keys.length ≤ index then (false, pool)
  else
    (true,
      if activeKeyCountLocked now (unparkedKeysOf pool index now)
          ≠ activeKeyCountLocked now (clearExpiredParks now pool.keys).1 then
        refreshPoolLimiterLocked
          { pool with keys := unparkedKeysOf pool index now }
          (activeKeyCountLocked now (unparkedKeysOf pool index now))
      else { pool with keys := unparkedKeysOf pool index now })

/-- The pool-pacing invariant: the pool limiter is installed (with interval
`per_key_interval / active_count`) exactly when more than one credential is
active at `now`. -/
def PoolPacingInv (now : ℚ) (pool : Pool) : Prop :=
  pool.pool_limiter.map (fun sl => sl.min_interval)
    = (if activeKeyCountLocked now pool.keys ≤ 1 then none
       else some ((pool.keys.headD dummyKey).limiter.min_interval
         / (activeKeyCountLocked now pool.keys : ℚ)))

/-- The `if self._pool_limiter:` guard of `_call` (the only place the
pool-wide spacing wait happens). -/
def poolWaitEngaged (pool : Pool) : Bool := pool.pool_limiter.isSome

/-! ### `_call` outcome handling -/

/-- `Fr24Credits`. -/
structure Fr24Credits where
  consumed : Option Int
  remaining : Option Int
deriving Repr, DecidableEq

/-- `Fr24Response` (the fields the orchestrator reads). -/
structure Fr24Response where
  flights : List Flight
  credits : Option Fr24Credits
  error : Option String
  rate_limited : Bool
  no_active_keys : Bool
  retry_after_seconds : Option Int
  key_index : Option Nat
  key_suffix : Option String
deriving Repr

/-- The outcome of the underlying HTTP request inside `_call` (the
exception raised, or the parsed payload). -/
inductive RequestOutcome where
  | success (flights : List Flight) (credits : Option Fr24Credits)
  | rateLimit (msg : String)
  | transport (msg : String)
  | other (msg : String)

/-- The `try/except` tail of `_call` once a key has been selected and its
limiter waited on: a `RateLimitError` applies a fixed 60 s cooldown to the
selected key's limiter (no park) and returns a rate-limited response; the
other failures return error responses without cooldown; success returns
the flights. -/
def callHandleOutcome (k : KeyState) (now : ℚ) (outcome : RequestOutcome) :
    Fr24Response × KeyState :=
  match outcome with
  | RequestOutcome.rateLimit msg =>
    ({ flights := [], credits := none,
       error := some ("RateLimitError: " ++ msg),
       rate_limited := true, no_active_keys := false,
       retry_after_seconds := none,
       key_index := some k.index, key_suffix := some k.suffix },
     { k with limiter := k.limiter.cooldown now 60 })
  | RequestOutcome.transport msg =>
    ({ flights := [], credits := none,
       error := some ("TransportError: " ++ msg),
       rate_limited := false, no_active_keys := false,
       retry_after_seconds := none,
       key_index := some k.index, key_suffix := some k.suffix }, k)
  | RequestOutcome.other msg =>
    ({ flights := [], credits := none, error := some msg,
       rate_limited := false, no_active_keys := false,
       retry_after_seconds := none,
       key_index := some k.index, key_suffix := some k.suffix }, k)
  | RequestOutcome.success flights credits =>
    ({ flights := flights, credits := credits, error := none,
       rate_limited := false, no_active_keys := false,
       retry_after_seconds := none,
       key_index := some k.index, key_suffix := some k.suffix }, k)

/-- The oversized display code exhibiting the C9 length overflow. -/
def hugeCode : String := String.mk (List.replicate 2000 'x')

/-- Ten recipient user ids used to exercise the mention truncation path. -/
def manyIds : List String := ["0", "1", "2", "3", "4", "5", "6", "7", "8", "9"]

/-- A concrete aircraft subscription for guild `g`. -/
def oneSub : Sub :=
  { id := 1, guild_id := "g", user_id := "u", type := "aircraft", code := "A320" }

/-- A concrete flight with a registration and identity that passes the
aircraft filters (non-zero altitude). -/
def regFlight : Flight :=
  { flight_id := some "N1", registration := some "N1",
    altitude := some 100, speed := some 10 }

/-- A concrete aircraft flight carrying a registration but no positional
fields at all. -/
def regOnlyFlight : Flight := { registration := some "N123AB" }

/-- A channel map resolving every guild to channel `1`. -/
def cmSome : String → Option String := fun _ => some "1"

/-- A send oracle on which every send succeeds. -/
def oracleTrue : Nat → Bool := fun _ => true

/-- A trivial canonical-payload digest stand-in for witnesses. -/
def digestD : Flight → String := fun _ => "D"

/-- A trivial distance function for witnesses. -/
def havZero : ℚ → ℚ → ℚ → ℚ → ℚ := fun _ _ _ _ => 0

/-- A three-key pool whose middle key is parked until epoch 100. -/
def parkedPool : Pool :=
  { Pool.init 3 10 with
    keys := (Pool.init 3 10).keys.set 1
      { (Pool.init 3 10).keys.getD 1 dummyKey with parked_until := some 100 } }

/-- Two cycles fetching the identical flight for the same subscription:
the dedup ledger must ensure a single log. -/
def twoCycles : List CycleReq :=
  [{ subscriptions := [oneSub], flights := [regFlight], subType := "aircraft" },
   { subscriptions := [oneSub], flights := [regFlight], subType := "aircraft" }]

/-! ### `poll_once`: batching and the fallback ladder -/

/-- The slicing loop of `_chunked`, fuelled by the list length (each step
consumes `size ≥ 1` elements, so the fuel never runs out first). -/
def chunkedGo (size : Nat) : Nat → List String → List (List String)
  | 0, _ => []
  | fuel + 1, vs =>
    if vs.isEmpty then []
    else vs.take size :: chunkedGo size fuel (vs.drop size)

/-- `_chunked(values, size)`: everything in one chunk for a non-positive
size, else successive slices of `size`. -/
def chunked (values : List String) (size : Nat) : List (List String) :=
  if size ≤ 0 then [values] else chunkedGo size values.length values

/-- Python `needle in hay` on code-point lists. -/
def listIsInfix (needle : List Char) : List Char → Bool
  | [] => needle.isEmpty
  | c :: rest => needle.isPrefixOf (c :: rest) || listIsInfix needle rest

/-- `Fr24Client.is_param_error`: falsy errors are not parameter errors;
otherwise scan the lowered text for the fixed token list. -/
def isParamError (error : Option String) : Bool :=
  strTruthy error &&
    (["badrequest", "bad request", "validation", "pydantic", "invalid format",
      "list_type", "pattern"].any
      (fun tok => listIsInfix tok.data (lowerStr (error.getD "")).data))

/-- `aircraft_groups.setdefault(code, []).append(sub)` on an
insertion-ordered association list. -/
def addGroup (groups : List (String × List Sub)) (code : String) (s : Sub) :
    List (String × List Sub) :=
  match groups with
  | [] => [(code, [s])]
  | g :: rest =>
    if g.1 = code then (g.1, g.2 ++ [s]) :: rest
    else g :: addGroup rest code s

/-- The `aircraft_groups` dict of `poll_once`: every non-airport
subscription is grouped under its code. -/
def buildAircraftGroups (subs : List Sub) : List (String × List Sub) :=
  subs.foldl
    (fun gs s => if s.type == "airport" then gs else addGroup gs s.code s) []

/-- `aircraft_groups.get(code, [])`. -/
def groupsGet (groups : List (String × List Sub)) (code : String) : List Sub :=
  match groups.find? (fun p => p.1 == code) with
  | some p => p.2
  | none => []

/-- Python `a or fallback` for an optional string (`None` and `""` are
falsy). -/
def orTruthy (a : Option String) (fallback : String) : String :=
  match a with
  | some s => if s = "" then fallback else s
  | none => fallback

/-- Python `str.isalpha()`: non-empty and all alphabetic. -/
def isAlphaStr (s : String) : Bool := !(s = "") && s.data.all Char.isAlpha

/-- The truthy members of the `{ref.icao, ref.iata}` match-code set. -/
def refMatchCodes (ref : AirportRef) : List String :=
  (([ref.icao, ref.iata].filterMap id).filter (fun c => !(c = ""))).dedup

/-- `_resolve_airport_codes(code, reference_data)`: the
`(request_code, display_code, match_codes)` triple, or `None` for an
unusable code. -/
def resolveAirportCodes (rd : ReferenceData) (code : String) :
    Option (String × String × List String) :=
  if normCode code = "" then none
  else if (normCode code).length = 3 then
    match rd.get_airport_by_iata (normCode code) with
    | some ref =>
      some (orTruthy ref.iata (orTruthy ref.icao (normCode code)),
        orTruthy ref.iata (orTruthy ref.icao (normCode code)),
        refMatchCodes ref)
    | none =>
      if isAlphaStr (normCode code) then
        some (normCode code, normCode code, [normCode code])
      else none
  else if (normCode code).length = 4 then
    match rd.get_airport (normCode code) with
    | some ref =>
      some (orTruthy ref.iata (orTruthy ref.icao (normCode code)),
        orTruthy ref.iata (orTruthy ref.icao (normCode code)),
        refMatchCodes ref)
    | none =>
      if isAlphaStr (normCode code) then
        some (normCode code, normCode code, [normCode code])
      else none
  else if (normCode code).length = 2 then
    if isAlphaStr (normCode code) then
      some (normCode code, normCode code, [normCode code])
    else none
  else none

/-- One `airport_targets` entry (a dict with three keys, hence always
truthy when present). -/
structure AirportTarget where
  display_code : String
  match_codes : List String
  subs : List Sub
deriving Repr, DecidableEq

/-- `airport_targets.setdefault(request_code, {...})` followed by the
match-code union and the subscription append. -/
def addTarget (ts : List (String × AirportTarget)) (rc dc : String)
    (mcs : List String) (s : Sub) : List (String × AirportTarget) :=
  match ts with
  | [] => [(rc, ⟨dc, mcs, [s]⟩)]
  | t :: rest =>
    if t.1 = rc then
      (t.1, ⟨t.2.display_code, t.2.match_codes ++ mcs, t.2.subs ++ [s]⟩) :: rest
    else t :: addTarget rest rc dc mcs s

/-- The `airport_targets` dict of `poll_once`: each airport subscription
whose code resolves is recorded under its request code. -/
def buildAirportTargets (rd : ReferenceData) (subs : List Sub) :
    List (String × AirportTarget) :=
  subs.foldl
    (fun ts s =>
      if s.type == "airport" then
        match resolveAirportCodes rd s.code with
        | none => ts
        | some rdc => addTarget ts rdc.1 rdc.2.1 rdc.2.2 s
      else ts) []

/-- `airport_targets.get(request_code)`. -/
def targetsGet (ts : List (String × AirportTarget)) (code : String) :
    Option AirportTarget :=
  (ts.find? (fun p => p.1 == code)).map Prod.snd

/-- `batchable_codes`: the target keys of length 3 or 4. -/
def batchableCodes (ts : List (String × AirportTarget)) : List String :=
  (ts.map Prod.fst).filter (fun c => c.length == 3 || c.length == 4)

/-- The aircraft codes of a batch for which the fallback loop actually
issues `fetch_by_aircraft` (those with a non-empty subscriber group). -/
def aircraftFallbackCodes (groups : List (String × List Sub))
    (batch : List String) : List String :=
  batch.filter (fun code => !(groupsGet groups code).isEmpty)

/-- The number of per-code fallback requests one aircraft batch causes:
none on a falsy error (normal processing), none when rate-limited, the
per-code loop on a parameter-shaped error, none otherwise. -/
def fallbackCallsForBatch (groups : List (String × List Sub))
    (batch : List String) (res : Fr24Response) : Nat :=
  if strTruthy res.error then
    if res.rate_limited then 0
    else if isParamError res.error then
      (aircraftFallbackCodes groups batch).length
    else 0
  else 0

/-- The airport codes of a batch for which the fallback loop actually
issues `fetch_by_airport_inbound` (those still present in the targets). -/
def airportFallbackCodes (ts : List (String × AirportTarget))
    (batch : List String) : List String :=
  batch.filter (fun code => (targetsGet ts code).isSome)

/-- The number of per-code fallback requests one airport batch causes. -/
def airportFallbackCallsForBatch (ts : List (String × AirportTarget))
    (batch : List String) (res : Fr24Response) : Nat :=
  if strTruthy res.error then
    if res.rate_limited then 0
    else if isParamError res.error then
      (airportFallbackCodes ts batch).length
    else 0
  else 0

/-- A concrete airport subscription (lower-case code, to exercise
normalization). -/
def airportSub : Sub :=
  { id := 2, guild_id := "g", user_id := "u", type := "airport", code := "lax" }

/-- Reference data that knows no airports. -/
def noneRefData : ReferenceData := ⟨fun _ => none, fun _ => none⟩

/-- A parameter-shaped batch failure. -/
def paramRes : Fr24Response :=
  { flights := [], credits := none, error := some "pydantic validation error",
    rate_limited := false, no_active_keys := false,
    retry_after_seconds := none, key_index := none, key_suffix := none }

/-- The response the `except NoActiveKeysError` handler of `_call`
returns (`int()` of the non-negative retry estimate). -/
def noActiveResp (retry : Option ℚ) : Fr24Response :=
  { flights := [], credits := none,
    error := some "No active FR24 API keys available (all parked)",
    rate_limited := false, no_active_keys := true,
    retry_after_seconds := retry.map (fun q => ⌊q⌋),
    key_index := none, key_suffix := none }

/-- How the `try: key_state, _ = await self._select_key()
except NoActiveKeysError` step of `_call` ends: with an exception
propagating out of `_call`, with the early no-active-keys response, or
(never, see `selectKey`) with a selected credential for the limiter wait
and the request that would follow. -/
inductive CallSelectOutcome where
  | raised (msg : String)
  | earlyResponse (resp : Fr24Response)
  | proceed (index : Nat)
deriving Repr

/-- The selection step of `_call`: only `NoActiveKeysError` is caught
around `_select_key`, so its `TypeError` escapes `_call` itself. -/
def callSelectStep (now : ℚ) (pool : Pool) : CallSelectOutcome × Pool :=
  match selectKey now pool with
  | (SelectResult.noActiveKeys retry, pool1) =>
    (CallSelectOutcome.earlyResponse (noActiveResp retry), pool1)
  | (SelectResult.typeError, pool1) =>
    (CallSelectOutcome.raised
      "TypeError: _format_key_statuses() missing 1 required positional argument",
     pool1)
  | (SelectResult.ok i, pool1) => (CallSelectOutcome.proceed i, pool1)

/-- A single-credential pool whose key is parked until epoch 3. -/
def soleParkedPool : Pool :=
  { Pool.init 1 10 with
    keys := (Pool.init 1 10).keys.set 0
      { (Pool.init 1 10).keys.getD 0 dummyKey with parked_until := some 3 } }

end FR24

namespace FR24

/-- **C2** (amended).  For an airport-kind matched event that is
on-ground-like and not a turnaround, with a resolvable destination
reference: absent any parsed ETA the event is eligible exactly when the
great-circle distance strictly exceeds 10 km — so at exactly 10.0 km and
at 9.999 km it is NOT eligible (the spec's boundary is off: the code
tests `distance_km > 10.0`) while any distance above 10 km is; and a
parsed ETA at least 30 minutes in the future makes an event within the
threshold eligible regardless (exactly 30 minutes qualifies, 29 min 59 s
does not). -/
theorem c2_arrival_eligibility_boundary (hav : ℚ → ℚ → ℚ → ℚ → ℚ)
    (rd : ReferenceData) (now e la lo rla rlo : ℚ) (f : Flight) (dr : AirportRef)
    (h1 : turnaroundByCodes f = false)
    (h2 : turnaroundByRefs rd f = false)
    (h3 : isOnGroundLike f = true)
    (h4 : getFlightPosition f = some (la, lo))
    (h5 : resolveAirportFromCodes rd (extractDestinationCodes f) = some dr)
    (h6 : dr.lat = some rla) (h7 : dr.lon = some rlo) :
    (extractEta f = none →
      isAirportAlertEligible hav rd now f = decide (10 < hav la lo rla rlo))
    ∧ (10 < hav la lo rla rlo → isAirportAlertEligible hav rd now f = true)
    ∧ (hav la lo rla rlo ≤ 10 → extractEta f = some (now + 30 * 60) →
      isAirportAlertEligible hav rd now f = true)
    ∧ (hav la lo rla rlo ≤ 10 → extractEta f = some e → e - now < 30 * 60 →
      isAirportAlertEligible hav rd now f = false) := by
  refine ⟨?_, ?_, ?_, ?_⟩
  · intro he
    by_cases hd : 10 < hav la lo rla rlo
    · rw [decide_eq_true hd]
      simp [isAirportAlertEligible, h1, h2, h3, h4, h5, h6, h7, hd]
    · rw [decide_eq_false hd]
      simp [isAirportAlertEligible, h1, h2, h3, h4, h5, h6, h7, hd, he]
  · intro hd
    simp [isAirportAlertEligible, h1, h2, h3, h4, h5, h6, h7, hd]
  · intro hd he
    simp [isAirportAlertEligible, h1, h2, h3, h4, h5, h6, h7, not_lt.mpr hd, he]
  · intro hd he hlt
    simp [isAirportAlertEligible, h1, h2, h3, h4, h5, h6, h7, not_lt.mpr hd, he]
    linarith

/-- **C2** counterexample to the claim as stated: a concrete
on-ground-like, non-turnaround event whose great-circle distance to the
destination reference is exactly 10.0 km and which has no ETA is NOT
eligible, while the claim asserts it is eligible. -/
theorem c2_arrival_eligibility_boundary_counterexample :
    turnaroundByCodes bdryFlight = false ∧
    turnaroundByRefs bdryRD bdryFlight = false ∧
    isOnGroundLike bdryFlight = true ∧
    extractEta bdryFlight = none ∧
    isAirportAlertEligible (fun _ _ _ _ => 10) bdryRD 0 bdryFlight = false := by
  decide

/-- `List.contains` agrees with membership (lawful `BEq`). -/
theorem containsIff {α : Type} [BEq α] [LawfulBEq α] (l : List α) (a : α) :
    l.contains a = true ↔ a ∈ l := by
  simp only [List.elem_eq_mem, decide_eq_true_eq]

/-- `List.contains` is `false` exactly on non-members. -/
theorem containsFalseIff {α : Type} [BEq α] [LawfulBEq α] (l : List α) (a : α) :
    l.contains a = false ↔ ¬ a ∈ l := by
  simp only [List.elem_eq_mem, decide_eq_false_iff_not]

/-- A subscription picked for notification was not in the ledger for this
identity at fetch time. -/
theorem toNotify_not_logged (ledger : List (Nat × String)) (fid : String)
    (gsubs : List Sub) (x : Sub) (hx : x ∈ toNotifySubs ledger fid gsubs) :
    ledger.contains (x.id, fid) = false := by
  unfold toNotifySubs at hx
  rw [List.mem_filter] at hx
  obtain ⟨hxg, hp⟩ := hx
  rw [Bool.not_eq_true', containsFalseIff] at hp
  rw [containsFalseIff]
  intro hmem
  apply hp
  unfold fetchLoggedSubscriptionIds
  rw [List.mem_filter]
  refine ⟨List.mem_map_of_mem _ hxg, ?_⟩
  rw [containsIff]
  exact hmem

/-- Splitting the dedup log count across the appended call of a successful
send. -/
theorem logsFor_append (st : PollState) (pairs : List (Nat × String))
    (ids : List Nat) (fid' : String) (s : Nat) (fid : String) :
    logsFor
      { ledger := st.ledger ++ pairs,
        logCalls := st.logCalls ++ [(ids, fid')],
        sendAttempts := st.sendAttempts + 1 } s fid
    = logsFor st s fid
      + (if ((fid' == fid) && ids.contains s) = true then 1 else 0) := by
  unfold logsFor
  rw [List.countP_append, List.countP_cons, List.countP_nil]
  norm_num

/-- One per-guild step preserves the dedup invariant for every pair. -/
theorem processGuildFlight_ledgerInv (oracle : Nat → Bool)
    (cm : String → Option String) (fid' g : String) (gsubs : List Sub)
    (s : Nat) (fid : String) (st : PollState) (h : LedgerInv s fid st) :
    LedgerInv s fid (processGuildFlight oracle cm fid' g gsubs st) := by
  unfold processGuildFlight
  by_cases hch : (!(strTruthy (cm g))) = true
  · rw [if_pos hch]; exact h
  · rw [if_neg hch]
    by_cases hemp : toNotifySubs st.ledger fid' gsubs = []
    · rw [if_pos hemp]; exact h
    · rw [if_neg hemp]
      by_cases hor : oracle st.sendAttempts = true
      · rw [if_pos hor]
        obtain ⟨h1, h2⟩ := h
        by_cases hhit : ((fid' == fid)
            && ((toNotifySubs st.ledger fid' gsubs).map (fun x => x.id)).contains s)
            = true
        · have hhx := hhit
          rw [Bool.and_eq_true] at hhx
          obtain ⟨hfid, hmem⟩ := hhx
          rw [beq_iff_eq] at hfid
          rw [containsIff, List.mem_map] at hmem
          obtain ⟨x, hxmem, hxid⟩ := hmem
          have hnotin : st.ledger.contains (s, fid) = false := by
            rw [← hxid, ← hfid]
            exact toNotify_not_logged st.ledger fid' gsubs x hxmem
          have h0 : logsFor st s fid = 0 := h1 hnotin
          constructor
          · intro hcontra
            exfalso
            rw [containsFalseIff] at hcontra
            apply hcontra
            show (s, fid) ∈ st.ledger
              ++ (toNotifySubs st.ledger fid' gsubs).map (fun y => (y.id, fid'))
            rw [List.mem_append, List.mem_map]
            exact Or.inr ⟨x, hxmem, by rw [hxid, hfid]⟩
          · rw [logsFor_append, h0, if_pos hhit]
        · have hhit' : ((fid' == fid)
              && ((toNotifySubs st.ledger fid' gsubs).map (fun x => x.id)).contains s)
              = false := by
            rwa [← Bool.not_eq_true]
          constructor
          · intro hcontra
            rw [logsFor_append, if_neg hhit, Nat.add_zero]
            apply h1
            rw [containsFalseIff] at hcontra ⊢
            intro hm
            exact hcontra (by rw [List.mem_append]; exact Or.inl hm)
          · rw [logsFor_append, if_neg hhit, Nat.add_zero]
            exact h2
      · rw [if_neg hor]
        exact h

/-- Folding any invariant-preserving step preserves the dedup invariant. -/
theorem foldl_ledgerInv {β : Type} (step : PollState → β → PollState)
    (s : Nat) (fid : String)
    (hstep : ∀ st b, LedgerInv s fid st → LedgerInv s fid (step st b)) :
    ∀ (l : List β) (st : PollState),
      LedgerInv s fid st → LedgerInv s fid (l.foldl step st)
  | [], _, h => h
  | b :: rest, st, h =>
    foldl_ledgerInv step s fid hstep rest (step st b) (hstep st b h)

/-- One flight of `_process_flights` preserves the dedup invariant. -/
theorem processOneFlight_ledgerInv (oracle : Nat → Bool)
    (digest : Flight → String) (hav : ℚ → ℚ → ℚ → ℚ → ℚ) (rd : ReferenceData)
    (now : ℚ) (channelMap : String → Option String) (subs : List Sub)
    (subType : String) (f : Flight) (s : Nat) (fid : String) (st : PollState)
    (h : LedgerInv s fid st) :
    LedgerInv s fid
      (processOneFlight oracle digest hav rd now channelMap subs subType st f) := by
  unfold processOneFlight
  split
  · exact h
  split
  · exact h
  split
  · exact h
  split
  · exact h
  split
  · exact h
  exact foldl_ledgerInv _ s fid
    (fun st' g h' =>
      processGuildFlight_ledgerInv oracle channelMap (buildFlightId digest f) g
        (subsOfGuild subs g) s fid st' h')
    (guildsOf subs) st h

/-- One `_process_flights` call preserves the dedup invariant. -/
theorem processFlights_ledgerInv (oracle : Nat → Bool)
    (digest : Flight → String) (hav : ℚ → ℚ → ℚ → ℚ → ℚ) (rd : ReferenceData)
    (now : ℚ) (channelMap : String → Option String) (subs : List Sub)
    (flights : List Flight) (subType : String) (s : Nat) (fid : String)
    (st : PollState) (h : LedgerInv s fid st) :
    LedgerInv s fid
      (processFlights oracle digest hav rd now channelMap subs flights subType st) := by
  unfold processFlights
  split
  · exact h
  exact foldl_ledgerInv _ s fid
    (fun st' f h' =>
      processOneFlight_ledgerInv oracle digest hav rd now channelMap subs subType
        f s fid st' h')
    flights st h

/-- Any number of cycles preserves the dedup invariant. -/
theorem runCycles_ledgerInv (oracle : Nat → Bool) (digest : Flight → String)
    (hav : ℚ → ℚ → ℚ → ℚ → ℚ) (rd : ReferenceData) (now : ℚ)
    (channelMap : String → Option String) (cycles : List CycleReq)
    (s : Nat) (fid : String) (st : PollState) (h : LedgerInv s fid st) :
    LedgerInv s fid (runCycles oracle digest hav rd now channelMap cycles st) :=
  foldl_ledgerInv _ s fid
    (fun st' c h' =>
      processFlights_ledgerInv oracle digest hav rd now channelMap
        c.subscriptions c.flights c.subType s fid st' h')
    cycles st h

/-- The greedy loop only ever extends its accumulator with a prefix of the
remaining mentions, and every non-empty result renders within the limit. -/
theorem keptLoop_spec (limit : Nat) (base : String) (total : Nat) :
    ∀ (ms kept : List String),
      (kept ≠ [] → (contentFor base total kept).length ≤ limit) →
      (∃ k, keptLoop limit base total ms kept.length kept = kept ++ ms.take k)
      ∧ (keptLoop limit base total ms kept.length kept ≠ [] →
          (contentFor base total
            (keptLoop limit base total ms kept.length kept)).length ≤ limit) := by
  intro ms
  induction ms with
  | nil =>
    intro kept hok
    exact ⟨⟨0, by simp [keptLoop]⟩, by simpa [keptLoop] using hok⟩
  | cons m rest ih =>
    intro kept hok
    have hl : (kept ++ [m]).length = kept.length + 1 := by simp
    by_cases hc :
        limit < (String.intercalate " " (kept ++ [m])
          ++ suffixFor base (total - (kept.length + 1))).length
    · have hres : keptLoop limit base total (m :: rest) kept.length kept = kept := by
        simp only [keptLoop]
        rw [if_pos hc]
      refine ⟨⟨0, by rw [hres]; simp⟩, fun hne => ?_⟩
      rw [hres] at hne ⊢
      exact hok hne
    · have hcand : (contentFor base total (kept ++ [m])).length ≤ limit := by
        unfold contentFor
        rw [hl]
        exact not_lt.mp hc
      have hstep : keptLoop limit base total (m :: rest) kept.length kept
          = keptLoop limit base total rest (kept ++ [m]).length (kept ++ [m]) := by
        simp only [keptLoop]
        rw [if_neg hc, hl]
      obtain ⟨⟨k, hk⟩, hlen⟩ := ih (kept ++ [m]) (fun _ => hcand)
      refine ⟨⟨k + 1, ?_⟩, ?_⟩
      · rw [hstep, hk]
        simp
      · rw [hstep]
        exact hlen

/-- Clearing expired parks is a no-op on a pool with no parks. -/
theorem clearExpired_no_parks (now : ℚ) (keys : List KeyState)
    (h : ∀ k ∈ keys, k.parked_until = none) :
    clearExpiredParks now keys = (keys, false) := by
  unfold clearExpiredParks
  have hmap : keys.map (clearKeyStep now) = keys.map (fun k => (k, false)) := by
    apply List.map_congr_left
    intro k hk
    unfold clearKeyStep
    rw [h k hk]
  rw [hmap]
  rw [Prod.mk.injEq]
  constructor
  · rw [List.map_map]
    show List.map (fun k => k) keys = keys
    exact List.map_id keys
  · induction keys with
    | nil => rfl
    | cons a as ih => simp [ih (fun k hk => h k (List.mem_cons_of_mem a hk))]

/-- Reading a constant-mapped list at a valid index. -/
theorem getD_map_const {α β : Type} (l : List α) (c : β) (i : Nat) (d : β)
    (h : i < l.length) :
    (l.map (fun _ => c)).getD i d = c := by
  rw [List.getD_eq_getD_get?]
  rw [List.get?_eq_getElem?, List.getElem?_map]
  rw [← List.get?_eq_getElem?, List.get?_eq_get h]
  rfl

/-- Folding `min` over equal values. -/
theorem foldl_min_replicate (w : ℚ) : ∀ n, (List.replicate n w).foldl min w = w
  | 0 => rfl
  | n + 1 => by
    rw [List.replicate_succ, List.foldl_cons, min_self]
    exact foldl_min_replicate w n

/-- The minimum of a non-empty constant list. -/
theorem min?_replicate_succ (n : Nat) (w : ℚ) :
    (List.replicate (n + 1) w).min? = some w := by
  rw [List.replicate_succ]
  show some ((List.replicate n w).foldl min w) = some w
  rw [foldl_min_replicate]

/-- The tie scan on all-equal, non-parked statuses selects the cursor
position itself. -/
theorem selectScan_const (rr K : Nat) (keys : List KeyState) (wv : ℚ)
    (hKpos : 0 < K) (hlen : keys.length = K) :
    selectScan rr (keys.map (fun _ => ((false : Bool), wv))) K wv
      = some (rr % K) := by
  unfold selectScan
  obtain ⟨Kp, rfl⟩ : ∃ Kp, K = Kp + 1 := ⟨K - 1, by omega⟩
  rw [List.range_succ_eq_map, List.findSome?_cons]
  have hlt : rr % (Kp + 1) < keys.length := by
    rw [hlen]
    exact Nat.mod_lt _ (by omega)
  have hgetD : (keys.map (fun _ => ((false : Bool), wv))).getD
      ((rr + 0) % (Kp + 1)) (true, 0) = (false, wv) := by
    rw [Nat.add_zero]
    exact getD_map_const keys _ _ _ hlt
  rw [hgetD]
  have hcond : (!((false : Bool)) && decide (|wv - wv| ≤ 1 / 1000)) = true := by
    norm_num
  rw [hcond]
  rw [Nat.add_zero]
  rfl

/-- Reading a mapped list at a valid index. -/
theorem getD_map_lt {α β : Type} (l : List α) (f : α → β) (i : Nat) (d : β)
    (dd : α) (h : i < l.length) :
    (l.map f).getD i d = f (l.getD i dd) := by
  rw [List.getD_eq_getD_get?]
  rw [List.get?_eq_getElem?, List.getElem?_map]
  rw [← List.get?_eq_getElem?, List.get?_eq_get h]
  rw [List.getD_eq_getD_get?, List.get?_eq_get h]
  rfl

/-- Clearing preserves the number of keys. -/
theorem clearExpired_length (now : ℚ) (keys : List KeyState) :
    (clearExpiredParks now keys).1.length = keys.length := by
  unfold clearExpiredParks
  rw [List.length_map, List.length_map]

/-- A strictly parked key survives the expired-park sweep unchanged. -/
theorem clearExpired_getD_strict (now t : ℚ) (keys : List KeyState) (i : Nat)
    (hi : i < keys.length)
    (hp : (keys.getD i dummyKey).parked_until = some t)
    (_ht : ¬ t = 0) (hlt : now < t) :
    (clearExpiredParks now keys).1.getD i dummyKey = keys.getD i dummyKey := by
  unfold clearExpiredParks
  rw [List.map_map, getD_map_lt keys _ i dummyKey dummyKey hi]
  show (clearKeyStep now (keys.getD i dummyKey)).1 = keys.getD i dummyKey
  unfold clearKeyStep
  rw [hp]
  have hc : (!decide (t = 0) && decide (t ≤ now)) = false := by
    simp [not_le.mpr hlt]
  simp only [hc]
  rfl

/-- An expired park is cleared by the sweep. -/
theorem clearExpired_getD_expired (now t : ℚ) (keys : List KeyState) (i : Nat)
    (hi : i < keys.length)
    (hp : (keys.getD i dummyKey).parked_until = some t)
    (ht : ¬ t = 0) (hle : t ≤ now) :
    ((clearExpiredParks now keys).1.getD i dummyKey).parked_until = none := by
  unfold clearExpiredParks
  rw [List.map_map, getD_map_lt keys _ i dummyKey dummyKey hi]
  show ((clearKeyStep now (keys.getD i dummyKey)).1).parked_until = none
  unfold clearKeyStep
  rw [hp]
  have hc : (!decide (t = 0) && decide (t ≤ now)) = true := by
    simp [ht, hle]
  simp only [hc]
  rfl

/-- `_select_key` leaves the key list as the expired-park sweep left it. -/
theorem refresh_keys (pool : Pool) (a : Nat) :
    (refreshPoolLimiterLocked pool a).keys = pool.keys := by
  unfold refreshPoolLimiterLocked
  split <;> rfl

/-- `_select_key` leaves the key list as the expired-park sweep left it. -/
theorem selectKey_keys (now : ℚ) (pool : Pool) :
    (selectKey now pool).2.keys = (clearExpiredParks now pool.keys).1 := by
  unfold selectKey
  split
  · split
    · rw [refresh_keys]
    · rfl
  · rfl

/-- The round-robin scan reaches any absolute index below `K`. -/
theorem rr_offset_hits (rr n K : Nat) (hn : n < K) :
    (rr + (n + K - rr % K) % K) % K = n := by
  have hr : rr % K < K := Nat.mod_lt _ (by omega)
  conv_lhs => rw [← Nat.mod_add_mod]
  rw [Nat.add_mod_mod]
  have he : rr % K + (n + K - rr % K) = n + K := by omega
  rw [he, Nat.add_mod_right, Nat.mod_eq_of_lt hn]

/-- No call of `_select_key` ever returns a selected key: the active path
raises `TypeError` at the `_format_key_statuses` call and the empty path
raises `NoActiveKeysError`. -/
theorem selectKey_never_ok (now : ℚ) (pool : Pool) (j : Nat) :
    (selectKey now pool).1 ≠ SelectResult.ok j := by
  unfold selectKey
  cases hmin : (selectWaits
      (selectStatuses now (clearExpiredParks now pool.keys).1)).min? with
  | none => simp
  | some best => simp

/-- A pool of unparked credentials is unchanged by the sweep and its head
credential is not strictly parked. -/
theorem allNone_active (now : ℚ) (pool : Pool)
    (hkeys : ∀ k ∈ pool.keys, k.parked_until = none)
    (hne : pool.keys ≠ []) :
    0 < (clearExpiredParks now pool.keys).1.length
    ∧ ((clearExpiredParks now pool.keys).1.getD 0 dummyKey).parkedNow now
      = false := by
  have hclear := clearExpired_no_parks now pool.keys hkeys
  constructor
  · rw [hclear]
    exact List.length_pos.mpr hne
  · rw [hclear]
    show (pool.keys.getD 0 dummyKey).parkedNow now = false
    obtain ⟨k0, rest, hk⟩ := List.exists_cons_of_ne_nil hne
    rw [hk]
    show k0.parkedNow now = false
    unfold KeyState.parkedNow
    rw [hkeys k0 (by rw [hk]; exact List.mem_cons_self k0 rest)]

/-- Every selection that sees an active credential raises the
`_format_key_statuses` `TypeError` instead of returning it. -/
theorem selectKey_active_typeError (now : ℚ) (pool : Pool) (j : Nat)
    (hj : j < (clearExpiredParks now pool.keys).1.length)
    (hact : ((clearExpiredParks now pool.keys).1.getD j dummyKey).parkedNow now
      = false) :
    (selectKey now pool).1 = SelectResult.typeError := by
  unfold selectKey
  cases hmin : (selectWaits
      (selectStatuses now (clearExpiredParks now pool.keys).1)).min? with
  | some best => rfl
  | none =>
    exfalso
    rw [List.min?_eq_none_iff] at hmin
    unfold selectWaits at hmin
    rw [List.filterMap_eq_nil_iff] at hmin
    have hjs : j < (selectStatuses now
        (clearExpiredParks now pool.keys).1).length := by
      unfold selectStatuses
      rw [List.length_map]
      exact hj
    have hgetD : (selectStatuses now
        (clearExpiredParks now pool.keys).1).getD j (true, 0)
        = ((((clearExpiredParks now pool.keys).1.getD j
              dummyKey).parkedNow now),
           keyWaitFor ((clearExpiredParks now pool.keys).1.getD j dummyKey)
             now) :=
      getD_map_lt (clearExpiredParks now pool.keys).1 _ j (true, (0 : ℚ))
        dummyKey hj
    have hmem : (selectStatuses now
        (clearExpiredParks now pool.keys).1).getD j (true, 0)
        ∈ selectStatuses now (clearExpiredParks now pool.keys).1 := by
      rw [List.getD_eq_getD_get?, List.get?_eq_get hjs]
      exact List.get_mem _ j hjs
    have happ := hmin _ hmem
    rw [hgetD] at happ
    simp only [hact] at happ
    simp at happ

/-- Over a pool of unparked credentials, a run of selections collects only
`TypeError` outcomes. -/
theorem runSelects_allNone (nows : List ℚ) :
    ∀ (pool : Pool), (∀ k ∈ pool.keys, k.parked_until = none) →
      pool.keys ≠ [] →
      (runSelects pool nows).1
        = nows.map (fun _ => SelectResult.typeError) := by
  induction nows with
  | nil =>
    intro pool _ _
    rfl
  | cons t rest ih =>
    intro pool hkeys hne
    obtain ⟨hpos, hact⟩ := allNone_active t pool hkeys hne
    have h1 := selectKey_active_typeError t pool 0 hpos hact
    have hkeys2 : (selectKey t pool).2.keys = pool.keys := by
      rw [selectKey_keys, clearExpired_no_parks t pool.keys hkeys]
    show (selectKey t pool).1 :: (runSelects (selectKey t pool).2 rest).1
        = SelectResult.typeError :: rest.map (fun _ => SelectResult.typeError)
    rw [h1, ih (selectKey t pool).2 (by rw [hkeys2]; exact hkeys)
      (by rw [hkeys2]; exact hne)]

/-- **C3** (code bug).  Selection fairness cannot hold: on a pool of fresh
credentials every `select()` call reaches the unconditional
`self._format_key_statuses(statuses, now)` call of `_select_key` — a
`@staticmethod` declared with a `self` parameter, invoked with only two
arguments — and raises `TypeError` instead of returning a credential, so
a run of `N` selections returns no key at all: each credential is chosen
`0` times rather than `≈ N/K` times. -/
theorem c3_selection_fairness (pool : Pool) (nows : List ℚ) (now : ℚ)
    (j : Nat) (hkeys : ∀ k ∈ pool.keys, k.parked_until = none)
    (hne : pool.keys ≠ []) :
    ((selectKey now pool).1 = SelectResult.typeError)
    ∧ ((selectKey now pool).1 ≠ SelectResult.ok j)
    ∧ ((runSelects pool nows).1
        = nows.map (fun _ => SelectResult.typeError))
    ∧ ((runSelects pool nows).1.countP
        (fun s => s == SelectResult.ok j) = 0) := by
  obtain ⟨hpos, hact⟩ := allNone_active now pool hkeys hne
  have h1 := selectKey_active_typeError now pool 0 hpos hact
  have hrun := runSelects_allNone nows pool hkeys hne
  refine ⟨h1, ?_, hrun, ?_⟩
  · rw [h1]
    simp
  · rw [hrun, List.countP_map, List.countP_eq_zero]
    intro a _
    simp [Function.comp, beq_iff_eq]

/-- Witness for C3: three fresh credentials and four selections at time 0;
credential 1 is never returned. -/
theorem c3_selection_fairness_witness :
    ((∀ k ∈ (Pool.init 3 10).keys, k.parked_until = none)
      ∧ (Pool.init 3 10).keys ≠ [])
    ∧ (((selectKey 0 (Pool.init 3 10)).1 = SelectResult.typeError)
      ∧ ((selectKey 0 (Pool.init 3 10)).1 ≠ SelectResult.ok 1)
      ∧ ((runSelects (Pool.init 3 10) [0, 0, 0, 0]).1
          = ([0, 0, 0, 0] : List ℚ).map (fun _ => SelectResult.typeError))
      ∧ ((runSelects (Pool.init 3 10) [0, 0, 0, 0]).1.countP
          (fun s => s == SelectResult.ok 1) = 0)) :=
  ⟨⟨by decide, by decide⟩,
    c3_selection_fairness (Pool.init 3 10) [0, 0, 0, 0] 0 1 (by decide)
      (by decide)⟩

/-- **C8** (code bug).  While a credential's `parked_until` lies strictly
in the future, `select()` indeed never returns it — but only because no
selection ever returns a key at all.  The sweep does lazily clear an
expired park (that mutation precedes the raise and persists), yet the
freshly unparked credential is not selected afterwards: on a single-key
pool the selection raises the `_format_key_statuses` `TypeError` instead
of returning key 0, so the claimed renewed selectability never happens. -/
theorem c8_park_exclusivity (pool : Pool) (now t : ℚ) (i j : Nat)
    (hi : i < pool.keys.length)
    (hp : (pool.keys.getD i dummyKey).parked_until = some t)
    (ht : ¬ t = 0) :
    ((selectKey now pool).1 ≠ SelectResult.ok j)
    ∧ (t ≤ now →
        ((selectKey now pool).2.keys.getD i dummyKey).parked_until = none)
    ∧ (t ≤ now → pool.keys.length = 1 →
        (selectKey now pool).1 = SelectResult.typeError) := by
  refine ⟨selectKey_never_ok now pool j, ?_, ?_⟩
  · intro hle
    rw [selectKey_keys]
    exact clearExpired_getD_expired now t pool.keys i hi hp ht hle
  · intro hle hlen1
    have hi0 : i = 0 := by omega
    subst hi0
    have hcleared := clearExpired_getD_expired now t pool.keys 0 hi hp ht hle
    apply selectKey_active_typeError now pool 0
    · rw [clearExpired_length]
      omega
    · unfold KeyState.parkedNow
      rw [hcleared]

/-- Witness for C8: a sole credential parked until epoch 3, examined at
time 5: the park is cleared by the sweep, and the selection then raises
instead of returning the credential. -/
theorem c8_park_exclusivity_witness :
    (0 < soleParkedPool.keys.length
      ∧ (soleParkedPool.keys.getD 0 dummyKey).parked_until = some 3
      ∧ ¬ (3 : ℚ) = 0)
    ∧ (((selectKey 5 soleParkedPool).1 ≠ SelectResult.ok 0)
      ∧ ((3 : ℚ) ≤ 5 →
          ((selectKey 5 soleParkedPool).2.keys.getD 0 dummyKey).parked_until
            = none)
      ∧ ((3 : ℚ) ≤ 5 → soleParkedPool.keys.length = 1 →
          (selectKey 5 soleParkedPool).1 = SelectResult.typeError)) :=
  ⟨⟨by decide, by decide, by decide⟩,
    c8_park_exclusivity soleParkedPool 5 3 0 0 (by decide) (by decide)
      (by decide)⟩

/-- **C1**.  At-most-once delivery: starting from any persisted ledger, over
any number of cycles the orchestrator invokes `log_notifications` with a
given `(subscription_id, flight_identity)` pair at most once; a failed
send leaves both the log trace and the ledger unchanged; a successful
send appends exactly one log call holding exactly the ids not in the
fetched already-logged set, and writes exactly those pairs to the
ledger. -/
theorem c1_at_most_once_delivery (oracle : Nat → Bool) (digest : Flight → String)
    (hav : ℚ → ℚ → ℚ → ℚ → ℚ) (rd : ReferenceData) (now : ℚ)
    (channelMap : String → Option String) (cycles : List CycleReq)
    (ledger0 : List (Nat × String)) (n0 s : Nat) (fid : String)
    (st1 : PollState) (g : String) (gsubs : List Sub) :
    logsFor (runCycles oracle digest hav rd now channelMap cycles
        { ledger := ledger0, logCalls := [], sendAttempts := n0 }) s fid ≤ 1
    ∧ (oracle st1.sendAttempts = false →
        (processGuildFlight oracle channelMap fid g gsubs st1).logCalls = st1.logCalls
        ∧ (processGuildFlight oracle channelMap fid g gsubs st1).ledger = st1.ledger)
    ∧ (strTruthy (channelMap g) = true → oracle st1.sendAttempts = true →
        ¬ toNotifySubs st1.ledger fid gsubs = [] →
        (processGuildFlight oracle channelMap fid g gsubs st1).logCalls
          = st1.logCalls
            ++ [((toNotifySubs st1.ledger fid gsubs).map (fun x => x.id), fid)]
        ∧ (processGuildFlight oracle channelMap fid g gsubs st1).ledger
          = st1.ledger
            ++ (toNotifySubs st1.ledger fid gsubs).map (fun x => (x.id, fid))) := by
  refine ⟨?_, ?_, ?_⟩
  · have h0 : LedgerInv s fid
        { ledger := ledger0, logCalls := [], sendAttempts := n0 } := by
      constructor
      · intro _
        rfl
      · show List.countP _ [] ≤ 1
        rw [List.countP_nil]
        omega
    exact (runCycles_ledgerInv oracle digest hav rd now channelMap cycles s fid _ h0).2
  · intro hor
    unfold processGuildFlight
    split
    · exact ⟨rfl, rfl⟩
    split
    · exact ⟨rfl, rfl⟩
    rw [if_neg (by simp [hor])]
    exact ⟨rfl, rfl⟩
  · intro hch hor hne
    unfold processGuildFlight
    rw [if_neg (by simp [hch]), if_neg hne, if_pos hor]
    exact ⟨rfl, rfl⟩

/-- Witness for C1: two cycles fetching the identical flight for the same
subscription log it exactly once. -/
theorem c1_at_most_once_delivery_witness :
    logsFor (runCycles oracleTrue digestD havZero bdryRD 0 cmSome twoCycles
        { ledger := [], logCalls := [], sendAttempts := 0 }) 1 "N1" ≤ 1
    ∧ (oracleTrue (PollState.mk [] [] 0).sendAttempts = false →
        (processGuildFlight oracleTrue cmSome "N1" "g" [oneSub]
          (PollState.mk [] [] 0)).logCalls = (PollState.mk [] [] 0).logCalls
        ∧ (processGuildFlight oracleTrue cmSome "N1" "g" [oneSub]
          (PollState.mk [] [] 0)).ledger = (PollState.mk [] [] 0).ledger)
    ∧ (strTruthy (cmSome "g") = true →
        oracleTrue (PollState.mk [] [] 0).sendAttempts = true →
        ¬ toNotifySubs (PollState.mk [] [] 0).ledger "N1" [oneSub] = [] →
        (processGuildFlight oracleTrue cmSome "N1" "g" [oneSub]
            (PollState.mk [] [] 0)).logCalls
          = (PollState.mk [] [] 0).logCalls
            ++ [((toNotifySubs (PollState.mk [] [] 0).ledger "N1" [oneSub]).map
                  (fun x => x.id), "N1")]
        ∧ (processGuildFlight oracleTrue cmSome "N1" "g" [oneSub]
            (PollState.mk [] [] 0)).ledger
          = (PollState.mk [] [] 0).ledger
            ++ (toNotifySubs (PollState.mk [] [] 0).ledger "N1" [oneSub]).map
                (fun x => (x.id, "N1"))) :=
  c1_at_most_once_delivery oracleTrue digestD havZero bdryRD 0 cmSome twoCycles
    [] 0 1 "N1" (PollState.mk [] [] 0) "g" [oneSub]

/-- **C10**.  A flight whose altitude is absent or zero and whose ground
speed is absent or zero is classified stationary-zero; consequently an
aircraft-kind event carrying a registration but no positional data is
dropped by `_process_flights` before any notification state changes. -/
theorem c10_stationary_zero_missing_data (oracle : Nat → Bool)
    (digest : Flight → String) (hav : ℚ → ℚ → ℚ → ℚ → ℚ) (rd : ReferenceData)
    (now : ℚ) (channelMap : String → Option String) (subs : List Sub)
    (st : PollState) (f : Flight)
    (ha : altitudeVal f = none ∨ altitudeVal f = some 0)
    (hs : speedVal f = none ∨ speedVal f = some 0) :
    isStationaryZero f = true
    ∧ (hasRegistration f = true →
        processFlights oracle digest hav rd now channelMap subs [f] "aircraft" st
          = st) := by
  have hz : isStationaryZero f = true := by
    unfold isStationaryZero
    rcases ha with h | h <;> rcases hs with h2 | h2 <;> rw [h, h2] <;> simp
  refine ⟨hz, fun hr => ?_⟩
  unfold processFlights
  rw [if_neg (by simp)]
  show processOneFlight oracle digest hav rd now channelMap subs "aircraft" st f = st
  unfold processOneFlight
  by_cases hef : f = emptyFlight
  · rw [if_pos hef]
  · rw [if_neg hef, if_neg (by simp [hr]), if_pos (by simp [hz])]

/-- Witness for C10: a registration-only record is stationary-zero and
produces no state change. -/
theorem c10_stationary_zero_missing_data_witness :
    (altitudeVal regOnlyFlight = none ∨ altitudeVal regOnlyFlight = some 0)
    ∧ (speedVal regOnlyFlight = none ∨ speedVal regOnlyFlight = some 0)
    ∧ (isStationaryZero regOnlyFlight = true
      ∧ (hasRegistration regOnlyFlight = true →
          processFlights oracleTrue digestD havZero bdryRD 0 cmSome [oneSub]
            [regOnlyFlight] "aircraft" (PollState.mk [] [] 0)
            = PollState.mk [] [] 0)) :=
  ⟨by decide, by decide,
    c10_stationary_zero_missing_data oracleTrue digestD havZero bdryRD 0 cmSome
      [oneSub] (PollState.mk [] [] 0) regOnlyFlight (by decide) (by decide)⟩

/-- **C9** (amended).  Building the notification content never fails and,
provided the base line `"Flight update for {code}"` itself fits in the
limit, returns at most `limit` characters.  When the full mention line
overflows the limit, the kept mentions are a prefix of the sorted mention
list: if at least one mention fits, the omitted ones are summarized as
`" and N more"` with `N` the number omitted; if no mention fits, the code
returns the bare base line with no summary (and the claim as stated also
fails when the base line alone exceeds the limit, where the code returns
it untruncated). -/
theorem c9_mention_truncation (user_ids : List String) (code : String)
    (limit : Nat) (hbase : (contentBase code).length ≤ limit) :
    (buildNotificationContent user_ids code limit).length ≤ limit
    ∧ (¬ user_ids = [] → limit < (fullLine user_ids code).length →
        (keptOf user_ids code limit =
            (mentionsOf user_ids).take (keptOf user_ids code limit).length
          ∧ (keptOf user_ids code limit = [] →
              buildNotificationContent user_ids code limit = contentBase code)
          ∧ (¬ keptOf user_ids code limit = [] →
              (keptOf user_ids code limit).length < (mentionsOf user_ids).length
              ∧ buildNotificationContent user_ids code limit =
                  String.intercalate " " (keptOf user_ids code limit)
                    ++ " and "
                    ++ toString ((mentionsOf user_ids).length
                        - (keptOf user_ids code limit).length)
                    ++ " more - " ++ contentBase code))) := by
  by_cases h0 : user_ids = []
  · refine ⟨?_, fun hne => absurd h0 hne⟩
    unfold buildNotificationContent
    rw [if_pos h0]
    exact hbase
  · by_cases hfull :
        (String.intercalate " " (mentionsOf user_ids) ++ " - "
          ++ contentBase code).length ≤ limit
    · refine ⟨?_, fun _ hlt => absurd hfull (not_le.mpr hlt)⟩
      unfold buildNotificationContent
      rw [if_neg h0, if_pos hfull]
      exact hfull
    · obtain ⟨⟨k, hk⟩, hcf⟩ :=
        keptLoop_spec limit (contentBase code) (mentionsOf user_ids).length
          (mentionsOf user_ids) [] (fun h => absurd rfl h)
      simp only [List.nil_append, List.length_nil] at hk hcf
      have hkept_eq : keptOf user_ids code limit =
          keptLoop limit (contentBase code) (mentionsOf user_ids).length
            (mentionsOf user_ids) 0 [] := rfl
      rw [← hkept_eq] at hk hcf
      have hpref : keptOf user_ids code limit =
          (mentionsOf user_ids).take (keptOf user_ids code limit).length := by
        rw [hk, List.length_take]
        rcases le_total k (mentionsOf user_ids).length with hkl | hkl
        · rw [min_eq_left hkl]
        · rw [min_eq_right hkl, List.take_length]
          exact List.take_of_length_le hkl
      by_cases hkept : keptOf user_ids code limit = []
      · have hbare : buildNotificationContent user_ids code limit
            = contentBase code := by
          unfold buildNotificationContent
          rw [if_neg h0, if_neg hfull, if_pos hkept]
        refine ⟨?_, fun _ _ => ⟨hpref, fun _ => hbare,
          fun hk2 => absurd hkept hk2⟩⟩
        rw [hbare]
        exact hbase
      · have hcf' := hcf hkept
        have hlen_le : (keptOf user_ids code limit).length
            ≤ (mentionsOf user_ids).length := by
          rw [hk, List.length_take]
          exact Nat.min_le_right k (mentionsOf user_ids).length
        have hlt : (keptOf user_ids code limit).length
            < (mentionsOf user_ids).length := by
          rcases lt_or_eq_of_le hlen_le with h | h
          · exact h
          · exfalso
            have hall : keptOf user_ids code limit = mentionsOf user_ids := by
              rw [hk] at h ⊢
              rcases le_total k (mentionsOf user_ids).length with hkl | hkl
              · have hmk : min k (mentionsOf user_ids).length = k :=
                  min_eq_left hkl
                rw [List.length_take, hmk] at h
                rw [h]
                exact List.take_length (mentionsOf user_ids)
              · exact List.take_of_length_le hkl
            rw [hall] at hcf'
            apply hfull
            calc (String.intercalate " " (mentionsOf user_ids) ++ " - "
                    ++ contentBase code).length
                = (contentFor (contentBase code) (mentionsOf user_ids).length
                    (mentionsOf user_ids)).length := by
                  simp [contentFor, suffixFor, String.append_assoc]
              _ ≤ limit := hcf'
        have hr : 0 < (mentionsOf user_ids).length
            - (keptOf user_ids code limit).length := by
          omega
        have hcontent : buildNotificationContent user_ids code limit =
            contentFor (contentBase code) (mentionsOf user_ids).length
              (keptOf user_ids code limit) := by
          unfold buildNotificationContent
          rw [if_neg h0, if_neg hfull, if_neg hkept, if_neg (not_lt.mpr hcf')]
        refine ⟨by rw [hcontent]; exact hcf',
          fun _ _ => ⟨hpref, fun hk2 => absurd hk2 hkept,
            fun _ => ⟨hlt, ?_⟩⟩⟩
        rw [hcontent]
        simp [contentFor, suffixFor, hr, String.append_assoc]

/-- **C9** counterexample to the claim as stated: with an empty recipient
list and a 2000-character display code, the built content is the 2018
character base line, exceeding the claimed 2000-character bound (the code
returns the base line untruncated when no mentions are kept). -/
theorem c9_mention_truncation_counterexample :
    2000 < (buildNotificationContent [] hugeCode 2000).length := by
  have h1 : buildNotificationContent [] hugeCode 2000 = contentBase hugeCode := by
    unfold buildNotificationContent
    rw [if_pos rfl]
  have h2 : hugeCode.length = 2000 := by
    show (List.replicate 2000 'x').length = 2000
    rw [List.length_replicate]
  rw [h1]
  unfold contentBase
  rw [String.length_append, h2]
  decide

/-- Witness for C9: ten recipients with a limit of 60: the full line
overflows, a proper non-empty prefix of the mentions is kept and the
omitted count is summarized. -/
theorem c9_mention_truncation_witness :
    ((contentBase "AB").length ≤ 60)
    ∧ ((buildNotificationContent manyIds "AB" 60).length ≤ 60
      ∧ (¬ manyIds = [] → 60 < (fullLine manyIds "AB").length →
          (keptOf manyIds "AB" 60 =
              (mentionsOf manyIds).take (keptOf manyIds "AB" 60).length
            ∧ (keptOf manyIds "AB" 60 = [] →
                buildNotificationContent manyIds "AB" 60 = contentBase "AB")
            ∧ (¬ keptOf manyIds "AB" 60 = [] →
                (keptOf manyIds "AB" 60).length < (mentionsOf manyIds).length
                ∧ buildNotificationContent manyIds "AB" 60 =
                    String.intercalate " " (keptOf manyIds "AB" 60)
                      ++ " and "
                      ++ toString
                        ((mentionsOf manyIds).length
                          - (keptOf manyIds "AB" 60).length)
                      ++ " more - " ++ contentBase "AB")))) :=
  ⟨by decide, c9_mention_truncation manyIds "AB" 60 (by decide)⟩

/-- Witness for C2: the amended theorem at the concrete boundary
configuration, with the distance pinned just below the threshold
(9.999 km): without an ETA the event is not eligible. -/
theorem c2_arrival_eligibility_boundary_witness :
    (turnaroundByCodes bdryFlight = false ∧
     turnaroundByRefs bdryRD bdryFlight = false ∧
     isOnGroundLike bdryFlight = true ∧
     getFlightPosition bdryFlight = some (52, 21) ∧
     resolveAirportFromCodes bdryRD (extractDestinationCodes bdryFlight) = some bdryRef ∧
     bdryRef.lat = some 52 ∧ bdryRef.lon = some 21)
    ∧ ((extractEta bdryFlight = none →
        isAirportAlertEligible (fun _ _ _ _ => 9999/1000) bdryRD 0 bdryFlight
          = decide ((10 : ℚ) < (fun _ _ _ _ => (9999/1000 : ℚ)) 52 21 52 21))
      ∧ (10 < (fun _ _ _ _ => (9999/1000 : ℚ)) 52 21 52 21 →
        isAirportAlertEligible (fun _ _ _ _ => 9999/1000) bdryRD 0 bdryFlight
          = true)
      ∧ ((fun _ _ _ _ => (9999/1000 : ℚ)) 52 21 52 21 ≤ 10 →
        extractEta bdryFlight = some (0 + 30 * 60) →
        isAirportAlertEligible (fun _ _ _ _ => 9999/1000) bdryRD 0 bdryFlight
          = true)
      ∧ ((fun _ _ _ _ => (9999/1000 : ℚ)) 52 21 52 21 ≤ 10 →
        extractEta bdryFlight = some 0 → (0 : ℚ) - 0 < 30 * 60 →
        isAirportAlertEligible (fun _ _ _ _ => 9999/1000) bdryRD 0 bdryFlight
          = false)) :=
  ⟨⟨by decide, by decide, by decide, by decide, by decide, by decide, by decide⟩,
    c2_arrival_eligibility_boundary (fun _ _ _ _ => 9999/1000) bdryRD 0 0
      52 21 52 21 bdryFlight bdryRef (by decide) (by decide) (by decide)
      (by decide) (by decide) (by decide) (by decide)⟩

/-- `cooldown` never changes the spacing interval. -/
theorem cooldown_min_interval (l : RateLimiter) (now s : ℚ) :
    (l.cooldown now s).min_interval = l.min_interval := by
  unfold RateLimiter.cooldown
  split_ifs <;> rfl

/-- `cooldown` pushes the cooldown deadline to `max(old, now + s)`. -/
theorem cooldown_cooldown_until (l : RateLimiter) (now s : ℚ) (hs : 0 < s) :
    (l.cooldown now s).cooldown_until = max l.cooldown_until (now + s) := by
  unfold RateLimiter.cooldown
  rw [if_neg (not_le.mpr hs)]
  by_cases hcd : l.cooldown_until < now + s
  · rw [if_pos hcd]
    by_cases hna : l.next_at < now + s
    · rw [if_pos hna]
      exact (max_eq_right (le_of_lt hcd)).symm
    · rw [if_neg hna]
      exact (max_eq_right (le_of_lt hcd)).symm
  · rw [if_neg hcd]
    by_cases hna : l.next_at < now + s
    · rw [if_pos hna]
      exact (max_eq_left (not_lt.mp hcd)).symm
    · rw [if_neg hna]
      exact (max_eq_left (not_lt.mp hcd)).symm

/-- **C4** (code bug).  The claimed rate-limit handling is unreachable: as
soon as an unparked credential exists, `_call` reaches `_select_key`,
whose unconditional `_format_key_statuses` call raises `TypeError`; only
`NoActiveKeysError` is caught around the selection, so the exception
escapes `_call` before any limiter wait or HTTP request.  No underlying
request can therefore fail rate-limited, the `RateLimitError` handler
(the 60-second cooldown and the rate-limited response) is dead code, and
`_call` raises instead of returning a result; moreover the only response
the selection step can ever produce is the all-parked one, which is never
marked rate-limited. -/
theorem c4_rate_limit_unreachable (pool pool2 : Pool) (now now2 : ℚ)
    (i : Nat) (resp : Fr24Response)
    (hkeys : ∀ k ∈ pool.keys, k.parked_until = none)
    (hne : pool.keys ≠ []) :
    ((callSelectStep now pool).1
      = CallSelectOutcome.raised
          "TypeError: _format_key_statuses() missing 1 required positional argument")
    ∧ ((callSelectStep now pool).1 ≠ CallSelectOutcome.proceed i)
    ∧ ((callSelectStep now2 pool2).1 = CallSelectOutcome.earlyResponse resp →
        resp.rate_limited = false) := by
  obtain ⟨hpos, hact⟩ := allNone_active now pool hkeys hne
  have h1 := selectKey_active_typeError now pool 0 hpos hact
  have hstep : (callSelectStep now pool).1
      = CallSelectOutcome.raised
          "TypeError: _format_key_statuses() missing 1 required positional argument" := by
    unfold callSelectStep
    cases hsel : selectKey now pool with
    | mk r p1 =>
      rw [hsel] at h1
      have hr : r = SelectResult.typeError := h1
      subst hr
      rfl
  refine ⟨hstep, ?_, ?_⟩
  · rw [hstep]
    simp
  · intro hresp
    unfold callSelectStep at hresp
    cases hsel : selectKey now2 pool2 with
    | mk r p1 =>
      rw [hsel] at hresp
      cases r with
      | noActiveKeys retry =>
        have hinj : noActiveResp retry = resp :=
          CallSelectOutcome.earlyResponse.inj hresp
        rw [← hinj]
        rfl
      | typeError => simp at hresp
      | ok k => simp at hresp

/-- Witness for C4: two fresh credentials at time 0 — the call raises at
the selection step and no request is issued; the all-parked early
response of a fully parked pool is not rate-limited. -/
theorem c4_rate_limit_unreachable_witness :
    ((∀ k ∈ (Pool.init 2 5).keys, k.parked_until = none)
      ∧ (Pool.init 2 5).keys ≠ [])
    ∧ (((callSelectStep 0 (Pool.init 2 5)).1
        = CallSelectOutcome.raised
            "TypeError: _format_key_statuses() missing 1 required positional argument")
      ∧ ((callSelectStep 0 (Pool.init 2 5)).1 ≠ CallSelectOutcome.proceed 0)
      ∧ ((callSelectStep 0 soleParkedPool).1
          = CallSelectOutcome.earlyResponse paramRes →
          paramRes.rate_limited = false)) :=
  ⟨⟨by decide, by decide⟩,
    c4_rate_limit_unreachable (Pool.init 2 5) soleParkedPool 0 0 0 paramRes
      (by decide) (by decide)⟩

/-- The expired-park sweep never flips the activity status of a key: it
only clears parks that are already inactive. -/
theorem clearKeyStep_active (now : ℚ) (k : KeyState) :
    ((clearKeyStep now k).1).isActive now = k.isActive now := by
  unfold clearKeyStep
  cases hp : k.parked_until with
  | none => rfl
  | some t =>
    cases hcond : (!decide (t = 0) && decide (t ≤ now)) with
    | false =>
      simp only [hcond]
      rfl
    | true =>
      simp only [hcond]
      rw [if_pos trivial]
      unfold KeyState.isActive
      simp only [hp]
      rw [Bool.and_eq_true] at hcond
      simp [hcond.2]

/-- The active-key count is unchanged by the expired-park sweep. -/
theorem clear_active_count (now : ℚ) (keys : List KeyState) :
    activeKeyCountLocked now (clearExpiredParks now keys).1
      = activeKeyCountLocked now keys := by
  unfold activeKeyCountLocked clearExpiredParks
  dsimp only
  rw [List.countP_map, List.countP_map]
  apply List.countP_congr
  intro k _
  simp only [Function.comp]
  rw [clearKeyStep_active now k]

/-- The expired-park sweep never touches a key's limiter, in particular the
head key's. -/
theorem clear_headD_limiter (now : ℚ) (keys : List KeyState) :
    (((clearExpiredParks now keys).1).headD dummyKey).limiter
      = (keys.headD dummyKey).limiter := by
  unfold clearExpiredParks
  cases keys with
  | nil => rfl
  | cons a as =>
    show ((clearKeyStep now a).1).limiter = a.limiter
    unfold clearKeyStep
    cases hp : a.parked_until with
    | none => rfl
    | some t =>
      cases hcond : (!decide (t = 0) && decide (t ≤ now)) with
      | false =>
        simp only [hcond]
        rfl
      | true =>
        simp only [hcond]
        rw [if_pos trivial]

/-- Writing back a key whose limiter is the stored one leaves the head
key's limiter unchanged. -/
theorem set_headD_limiter (keys : List KeyState) (i : Nat) (x : KeyState)
    (hx : x.limiter = (keys.getD i dummyKey).limiter) :
    ((keys.set i x).headD dummyKey).limiter = (keys.headD dummyKey).limiter := by
  cases keys with
  | nil => rfl
  | cons a as =>
    cases i with
    | zero =>
      show x.limiter = a.limiter
      rw [hx]
      rfl
    | succ n => rfl

/-- Parking a key preserves the head key's limiter (the per-credential
interval source). -/
theorem park_headD (pool : Pool) (i : Nat) (u : ℚ) (reason : Option String)
    (now : ℚ) :
    ((parkedKeysOf pool i u reason now).headD dummyKey).limiter
      = (pool.keys.headD dummyKey).limiter := by
  unfold parkedKeysOf
  refine (set_headD_limiter _ i _ ?_).trans (clear_headD_limiter now pool.keys)
  rfl

/-- Unparking a key preserves the head key's limiter. -/
theorem unpark_headD (pool : Pool) (i : Nat) (now : ℚ) :
    ((unparkedKeysOf pool i now).headD dummyKey).limiter
      = (pool.keys.headD dummyKey).limiter := by
  unfold unparkedKeysOf
  refine (set_headD_limiter _ i _ ?_).trans (clear_headD_limiter now pool.keys)
  rfl

/-- `_refresh_pool_limiter_locked`, fed the active count of its own key
list, establishes the pool-pacing invariant. -/
theorem refresh_inv (pool : Pool) (now : ℚ) :
    PoolPacingInv now
      (refreshPoolLimiterLocked pool (activeKeyCountLocked now pool.keys)) := by
  unfold PoolPacingInv
  rw [refresh_keys]
  unfold refreshPoolLimiterLocked
  by_cases ha : activeKeyCountLocked now pool.keys ≤ 1
  · rw [if_pos ha, if_pos ha]
    rfl
  · rw [if_neg ha, if_neg ha]
    rfl

/-- A key list without parks is fully active. -/
theorem countP_isActive_all_none (now : ℚ) (keys : List KeyState)
    (h : ∀ k ∈ keys, k.parked_until = none) :
    activeKeyCountLocked now keys = keys.length := by
  unfold activeKeyCountLocked
  rw [List.countP_eq_length]
  intro k hk
  unfold KeyState.isActive
  rw [h k hk]

/-- A fresh pool satisfies the pool-pacing invariant at every time. -/
theorem init_pacing_inv (numKeys mrpm : Nat) (now : ℚ) :
    PoolPacingInv now (Pool.init numKeys mrpm) := by
  have hmem : ∀ k ∈ (Pool.init numKeys mrpm).keys, k.parked_until = none := by
    intro k hk
    simp only [Pool.init] at hk
    rw [List.mem_map] at hk
    obtain ⟨j, _, rfl⟩ := hk
    rfl
  have hlen : (Pool.init numKeys mrpm).keys.length = numKeys := by
    simp only [Pool.init]
    rw [List.length_map, List.length_range]
  have hcount : activeKeyCountLocked now (Pool.init numKeys mrpm).keys
      = numKeys :=
    (countP_isActive_all_none now _ hmem).trans hlen
  unfold PoolPacingInv
  rw [hcount]
  by_cases hK : numKeys ≤ 1
  · rw [if_pos hK]
    have hpl : (Pool.init numKeys mrpm).pool_limiter = none := by
      simp only [Pool.init]
      rw [if_neg (by omega : ¬ 1 < numKeys)]
    rw [hpl]
    rfl
  · rw [if_neg hK]
    have hpl : (Pool.init numKeys mrpm).pool_limiter
        = some ⟨((Pool.init numKeys mrpm).keys.headD
            dummyKey).limiter.min_interval / (numKeys : ℚ), 0⟩ := by
      simp only [Pool.init]
      rw [if_pos (by omega : 1 < numKeys)]
    rw [hpl]
    rfl

/-- `park_key_by_index` preserves the pool-pacing invariant: the pool
limiter is refreshed in the same critical section whenever the park
changes the active count. -/
theorem park_pacing_inv (pool : Pool) (now u : ℚ) (i : Nat)
    (reason : Option String) (hinv : PoolPacingInv now pool) :
    PoolPacingInv now (parkKeyByIndex pool i u reason now).2 := by
  unfold parkKeyByIndex
  by_cases hidx : pool.keys.length ≤ i
  · rw [if_pos hidx]
    exact hinv
  · rw [if_neg hidx]
    by_cases hc : activeKeyCountLocked now (parkedKeysOf pool i u reason now)
        ≠ activeKeyCountLocked now (clearExpiredParks now pool.keys).1
    · rw [if_pos hc]
      exact refresh_inv { pool with keys := parkedKeysOf pool i u reason now }
        now
    · rw [if_neg hc]
      push_neg at hc
      unfold PoolPacingInv at hinv ⊢
      dsimp only
      rw [hc, clear_active_count now pool.keys]
      rw [park_headD pool i u reason now]
      exact hinv

/-- `unpark_key_by_index` preserves the pool-pacing invariant. -/
theorem unpark_pacing_inv (pool : Pool) (now : ℚ) (i : Nat)
    (hinv : PoolPacingInv now pool) :
    PoolPacingInv now (unparkKeyByIndex pool i now).2 := by
  unfold unparkKeyByIndex
  by_cases hidx : pool.keys.length ≤ i
  · rw [if_pos hidx]
    exact hinv
  · rw [if_neg hidx]
    by_cases hc : activeKeyCountLocked now (unparkedKeysOf pool i now)
        ≠ activeKeyCountLocked now (clearExpiredParks now pool.keys).1
    · rw [if_pos hc]
      exact refresh_inv { pool with keys := unparkedKeysOf pool i now } now
    · rw [if_neg hc]
      push_neg at hc
      unfold PoolPacingInv at hinv ⊢
      dsimp only
      rw [hc, clear_active_count now pool.keys]
      rw [unpark_headD pool i now]
      exact hinv

/-- Under the invariant, `_call` engages the pool-wide spacing wait exactly
when more than one credential is active. -/
theorem pool_wait_iff (now : ℚ) (pool : Pool) (hinv : PoolPacingInv now pool) :
    poolWaitEngaged pool = decide (1 < activeKeyCountLocked now pool.keys) := by
  unfold poolWaitEngaged
  unfold PoolPacingInv at hinv
  by_cases hc : activeKeyCountLocked now pool.keys ≤ 1
  · rw [if_pos hc] at hinv
    have h0 : pool.pool_limiter = none := by
      cases hpl : pool.pool_limiter with
      | none => rfl
      | some sl =>
        rw [hpl] at hinv
        exact absurd hinv (by simp)
    rw [h0]
    rw [decide_eq_false (by omega : ¬ 1 < activeKeyCountLocked now pool.keys)]
    rfl
  · rw [if_neg hc] at hinv
    cases hpl : pool.pool_limiter with
    | none =>
      rw [hpl] at hinv
      exact absurd hinv (by simp)
    | some sl =>
      rw [decide_eq_true (by omega : 1 < activeKeyCountLocked now pool.keys)]
      rfl

/-- **C6**. The pool-wide pacing interval, whenever installed, equals
`per_credential_interval / max(1, active_count)` and is absent at one or
fewer active credentials; a fresh pool satisfies this invariant, every
park or unpark transition re-establishes it synchronously (refreshing the
limiter exactly when the active count changed), and under the invariant
`_call` waits on the pool-wide limiter iff more than one credential is
active. -/
theorem c6_pool_pacing_invariant (pool : Pool) (now u : ℚ)
    (a numKeys mrpm i : Nat) (reason : Option String)
    (hinv : PoolPacingInv now pool) :
    ((refreshPoolLimiterLocked pool a).pool_limiter.map
        (fun sl => sl.min_interval)
      = if a ≤ 1 then none
        else some ((pool.keys.headD dummyKey).limiter.min_interval
          / ((max 1 a : Nat) : ℚ)))
    ∧ PoolPacingInv now (Pool.init numKeys mrpm)
    ∧ PoolPacingInv now (parkKeyByIndex pool i u reason now).2
    ∧ PoolPacingInv now (unparkKeyByIndex pool i now).2
    ∧ poolWaitEngaged pool
      = decide (1 < activeKeyCountLocked now pool.keys) := by
  refine ⟨?_, init_pacing_inv numKeys mrpm now,
    park_pacing_inv pool now u i reason hinv,
    unpark_pacing_inv pool now i hinv, pool_wait_iff now pool hinv⟩
  unfold refreshPoolLimiterLocked
  by_cases ha : a ≤ 1
  · rw [if_pos ha, if_pos ha]
    rfl
  · rw [if_neg ha, if_neg ha]
    rw [Nat.max_eq_right (by omega : 1 ≤ a)]
    rfl

/-- Witness for C6 at a fresh three-credential pool inspected at time 0,
parking and unparking credential 1. -/
theorem c6_pool_pacing_invariant_witness :
    PoolPacingInv 0 (Pool.init 3 10)
    ∧ (((refreshPoolLimiterLocked (Pool.init 3 10) 4).pool_limiter.map
          (fun sl => sl.min_interval)
        = if 4 ≤ 1 then none
          else some (((Pool.init 3 10).keys.headD
              dummyKey).limiter.min_interval / ((max 1 4 : Nat) : ℚ)))
      ∧ PoolPacingInv 0 (Pool.init 2 7)
      ∧ PoolPacingInv 0
          (parkKeyByIndex (Pool.init 3 10) 1 100 (some "maintenance") 0).2
      ∧ PoolPacingInv 0 (unparkKeyByIndex (Pool.init 3 10) 1 0).2
      ∧ poolWaitEngaged (Pool.init 3 10)
        = decide (1 < activeKeyCountLocked 0 (Pool.init 3 10).keys)) :=
  ⟨init_pacing_inv 3 10 0,
    c6_pool_pacing_invariant (Pool.init 3 10) 0 100 4 2 7 1 (some "maintenance")
      (init_pacing_inv 3 10 0)⟩

/-- `wait` never changes the spacing interval. -/
theorem waitStep_min_interval (l : RateLimiter) (now : ℚ) :
    (l.waitStep now).2.min_interval = l.min_interval := rfl

/-- After a grant, the next permit is scheduled one spacing interval
later. -/
theorem waitStep_next_at (l : RateLimiter) (now : ℚ) :
    (l.waitStep now).2.next_at = (l.waitStep now).1 + l.min_interval := rfl

/-- A permit is never granted before the scheduled next-permit time. -/
theorem waitStep_grant_ge (l : RateLimiter) (now : ℚ) :
    l.next_at ≤ (l.waitStep now).1 := by
  unfold RateLimiter.waitStep
  dsimp only
  exact le_max_right _ _

/-- `cooldown` never pulls the next-permit time backward (the spacing
interval being nonnegative). -/
theorem cooldown_next_at_ge (l : RateLimiter) (now s : ℚ)
    (hmi : 0 ≤ l.min_interval) :
    l.next_at ≤ (l.cooldown now s).next_at := by
  unfold RateLimiter.cooldown
  split_ifs <;> (try dsimp only) <;> linarith

/-- Permit grants of a limiter trace are spaced by at least the limiter's
interval, and the first grant respects the pending schedule. -/
theorem runLimiter_spacing (l : RateLimiter) (ops : List LimiterOp)
    (hmi : 0 ≤ l.min_interval) :
    List.Chain' (fun a b => a + l.min_interval ≤ b) (runLimiter l ops).1
    ∧ (∀ g, (runLimiter l ops).1.head? = some g → l.next_at ≤ g) := by
  induction ops generalizing l with
  | nil =>
    constructor
    · exact List.chain'_nil
    · intro g hg
      simp [runLimiter] at hg
  | cons op rest ih =>
    cases op with
    | wait now =>
      have hmi2 : 0 ≤ (l.waitStep now).2.min_interval := by
        rw [waitStep_min_interval]
        exact hmi
      obtain ⟨ihch, ihhead⟩ := ih (l.waitStep now).2 hmi2
      constructor
      · show List.Chain' _
          ((l.waitStep now).1 :: (runLimiter (l.waitStep now).2 rest).1)
        rw [List.chain'_cons']
        constructor
        · intro b hb
          have hnext := ihhead b (Option.mem_def.mp hb)
          rw [waitStep_next_at] at hnext
          exact hnext
        · have hc := ihch
          simp only [waitStep_min_interval] at hc
          exact hc
      · intro g hg
        have hh : ((runLimiter l (LimiterOp.wait now :: rest)).1).head?
            = some ((l.waitStep now).1) := rfl
        have hg' : (l.waitStep now).1 = g := Option.some.inj (hh.symm.trans hg)
        rw [← hg']
        exact waitStep_grant_ge l now
    | cool now secs =>
      have hmi2 : 0 ≤ (l.cooldown now secs).min_interval := by
        rw [cooldown_min_interval]
        exact hmi
      obtain ⟨ihch, ihhead⟩ := ih (l.cooldown now secs) hmi2
      constructor
      · show List.Chain' _ (runLimiter (l.cooldown now secs) rest).1
        have hc := ihch
        simp only [cooldown_min_interval] at hc
        exact hc
      · intro g hg
        have h1 := ihhead g hg
        exact le_trans (cooldown_next_at_ge l now secs hmi) h1

/-- Adjacent entries of a chain of gaps are at least one interval apart. -/
theorem chain_adjacent (mi : ℚ) (gs : List ℚ)
    (hch : List.Chain' (fun a b => a + mi ≤ b) gs) (k : Nat)
    (hk : k + 1 < gs.length) :
    gs.getD k 0 + mi ≤ gs.getD (k + 1) 0 := by
  rw [List.chain'_iff_get] at hch
  have h := hch k (by omega)
  rw [List.getD_eq_getD_get?, List.get?_eq_get (by omega : k < gs.length)]
  rw [List.getD_eq_getD_get?, List.get?_eq_get hk]
  exact h

/-- Entries `d` apart in a chain of gaps are at least `d` intervals
apart. -/
theorem chain_getD_add (mi : ℚ) (gs : List ℚ)
    (hch : List.Chain' (fun a b => a + mi ≤ b) gs) (i : Nat) :
    ∀ d : Nat, i + d < gs.length →
      gs.getD i 0 + (d : ℚ) * mi ≤ gs.getD (i + d) 0 := by
  intro d
  induction d with
  | zero =>
    intro h0
    simp
  | succ n ih =>
    intro hlt
    have ih2 := ih (by omega)
    have hadj : gs.getD (i + n) 0 + mi ≤ gs.getD (i + n + 1) 0 :=
      chain_adjacent mi gs hch (i + n) (by omega)
    have hidx : i + (n + 1) = i + n + 1 := by omega
    rw [hidx]
    push_cast
    linarith [ih2, hadj]

/-- **C7**. A credential's limiter is configured with a spacing interval of
exactly `60 / max_requests_per_minute` plus the fixed half-second padding;
along any trace of waits and cooldowns, consecutive granted permits are
at least that interval apart, and consequently no 60-second window
contains more than `max_requests_per_minute` grants. -/
theorem c7_pacing_correctness (m : Nat) (ops : List LimiterOp) (i j : Nat)
    (hm : 1 ≤ m) :
    ((RateLimiter.init m (1/2)).min_interval = 60 / (m : ℚ) + 1/2)
    ∧ (i + 1 < (runLimiter (RateLimiter.init m (1/2)) ops).1.length →
        (runLimiter (RateLimiter.init m (1/2)) ops).1.getD i 0
            + (RateLimiter.init m (1/2)).min_interval
          ≤ (runLimiter (RateLimiter.init m (1/2)) ops).1.getD (i + 1) 0)
    ∧ (i ≤ j → j < (runLimiter (RateLimiter.init m (1/2)) ops).1.length →
        (runLimiter (RateLimiter.init m (1/2)) ops).1.getD j 0
            - (runLimiter (RateLimiter.init m (1/2)) ops).1.getD i 0 ≤ 60 →
        j - i + 1 ≤ m) := by
  have hmq : (0 : ℚ) < (m : ℚ) := by exact_mod_cast hm
  have hmi_eq : (RateLimiter.init m (1/2)).min_interval
      = 60 / (m : ℚ) + 1/2 := by
    simp only [RateLimiter.init]
    rw [Nat.max_eq_right hm]
  have hmipos : 0 < (RateLimiter.init m (1/2)).min_interval := by
    rw [hmi_eq]
    positivity
  have hch := (runLimiter_spacing (RateLimiter.init m (1/2)) ops
    (le_of_lt hmipos)).1
  refine ⟨hmi_eq, ?_, ?_⟩
  · intro hlen
    exact chain_adjacent _ _ hch i hlen
  · intro hij hj hwin
    by_contra hcnt
    have hd : m ≤ j - i := by omega
    have hsum := chain_getD_add _ _ hch i (j - i) (by omega)
    have hji : i + (j - i) = j := by omega
    rw [hji] at hsum
    have hcast : (m : ℚ) ≤ ((j - i : Nat) : ℚ) := by exact_mod_cast hd
    have hmmi : (m : ℚ) * (RateLimiter.init m (1/2)).min_interval
        = 60 + (m : ℚ) / 2 := by
      rw [hmi_eq]
      field_simp
      ring
    have hmul : (m : ℚ) * (RateLimiter.init m (1/2)).min_interval
        ≤ ((j - i : Nat) : ℚ) * (RateLimiter.init m (1/2)).min_interval :=
      mul_le_mul_of_nonneg_right hcast (le_of_lt hmipos)
    linarith [hsum, hmul, hmmi]

/-- Witness for C7: a two-per-minute limiter run through three waits
grants permits at 0, 30.5 and 61 seconds. -/
theorem c7_pacing_correctness_witness :
    1 ≤ 2
    ∧ (((RateLimiter.init 2 (1/2)).min_interval = 60 / ((2 : Nat) : ℚ) + 1/2)
      ∧ (0 + 1 < (runLimiter (RateLimiter.init 2 (1/2))
            [LimiterOp.wait 0, LimiterOp.wait 0, LimiterOp.wait 0]).1.length →
          (runLimiter (RateLimiter.init 2 (1/2))
              [LimiterOp.wait 0, LimiterOp.wait 0,
                LimiterOp.wait 0]).1.getD 0 0
              + (RateLimiter.init 2 (1/2)).min_interval
            ≤ (runLimiter (RateLimiter.init 2 (1/2))
                [LimiterOp.wait 0, LimiterOp.wait 0,
                  LimiterOp.wait 0]).1.getD (0 + 1) 0)
      ∧ (0 ≤ 1 → 1 < (runLimiter (RateLimiter.init 2 (1/2))
            [LimiterOp.wait 0, LimiterOp.wait 0, LimiterOp.wait 0]).1.length →
          (runLimiter (RateLimiter.init 2 (1/2))
              [LimiterOp.wait 0, LimiterOp.wait 0,
                LimiterOp.wait 0]).1.getD 1 0
              - (runLimiter (RateLimiter.init 2 (1/2))
                  [LimiterOp.wait 0, LimiterOp.wait 0,
                    LimiterOp.wait 0]).1.getD 0 0 ≤ 60 →
          1 - 0 + 1 ≤ 2)) :=
  ⟨by decide,
    c7_pacing_correctness 2
      [LimiterOp.wait 0, LimiterOp.wait 0, LimiterOp.wait 0] 0 1 (by decide)⟩

/-- Every element of a chunk is an element of the chunked list. -/
theorem chunkedGo_subset (size fuel : Nat) (vs batch : List String)
    (hb : batch ∈ chunkedGo size fuel vs) : ∀ c ∈ batch, c ∈ vs := by
  induction fuel generalizing vs with
  | zero =>
    simp [chunkedGo] at hb
  | succ n ih =>
    intro c hcb
    simp only [chunkedGo] at hb
    by_cases he : vs.isEmpty
    · rw [if_pos he] at hb
      exact absurd hb (List.not_mem_nil batch)
    · rw [if_neg he] at hb
      rw [List.mem_cons] at hb
      cases hb with
      | inl h1 =>
        rw [h1] at hcb
        exact List.take_subset size vs hcb
      | inr h2 =>
        exact List.drop_subset size vs (ih (vs.drop size) h2 c hcb)

/-- Every element of a `_chunked` batch comes from the original list. -/
theorem chunked_subset (values : List String) (size : Nat)
    (batch : List String) (hb : batch ∈ chunked values size) :
    ∀ c ∈ batch, c ∈ values := by
  unfold chunked at hb
  by_cases hs : size ≤ 0
  · rw [if_pos hs] at hb
    rw [List.mem_singleton] at hb
    intro c hc
    rw [hb] at hc
    exact hc
  · rw [if_neg hs] at hb
    exact chunkedGo_subset size values.length values batch hb

/-- `setdefault(...).append(...)` keeps every group non-empty. -/
theorem addGroup_nonempty (code : String) (s : Sub) :
    ∀ (groups : List (String × List Sub)), (∀ p ∈ groups, p.2 ≠ []) →
      ∀ p ∈ addGroup groups code s, p.2 ≠ [] := by
  intro groups
  induction groups with
  | nil =>
    intro _ p hp
    simp only [addGroup] at hp
    rw [List.mem_singleton] at hp
    rw [hp]
    simp
  | cons g rest ih =>
    intro h p hp
    simp only [addGroup] at hp
    by_cases hg : g.1 = code
    · rw [if_pos hg] at hp
      rw [List.mem_cons] at hp
      cases hp with
      | inl h1 =>
        rw [h1]
        simp
      | inr h2 =>
        exact h p (List.mem_cons_of_mem g h2)
    · rw [if_neg hg] at hp
      rw [List.mem_cons] at hp
      cases hp with
      | inl h1 =>
        rw [h1]
        exact h g (List.mem_cons_self g rest)
      | inr h2 =>
        exact ih (fun q hq => h q (List.mem_cons_of_mem g hq)) p h2

/-- The grouping fold keeps every group non-empty. -/
theorem buildGroups_nonempty_aux :
    ∀ (subs : List Sub) (init : List (String × List Sub)),
      (∀ p ∈ init, p.2 ≠ []) →
      ∀ p ∈ subs.foldl
        (fun gs s => if s.type == "airport" then gs else addGroup gs s.code s)
        init, p.2 ≠ [] := by
  intro subs
  induction subs with
  | nil =>
    intro init h
    exact h
  | cons s rest ih =>
    intro init h
    rw [List.foldl_cons]
    apply ih
    by_cases ht : (s.type == "airport") = true
    · rw [if_pos ht]
      exact h
    · rw [if_neg ht]
      exact addGroup_nonempty s.code s init h

/-- Every `aircraft_groups` entry holds at least one subscription. -/
theorem buildGroups_nonempty (subs : List Sub) :
    ∀ p ∈ buildAircraftGroups subs, p.2 ≠ [] := by
  unfold buildAircraftGroups
  exact buildGroups_nonempty_aux subs []
    (fun p hp => absurd hp (List.not_mem_nil p))

/-- Looking up a present key of a non-empty-valued association list yields
a non-empty entry list. -/
theorem groupsGet_ne_nil (groups : List (String × List Sub)) (c : String)
    (hinv : ∀ p ∈ groups, p.2 ≠ []) (hc : c ∈ groups.map Prod.fst) :
    groupsGet groups c ≠ [] := by
  unfold groupsGet
  cases hf : groups.find? (fun p => p.1 == c) with
  | none =>
    rw [List.find?_eq_none] at hf
    rw [List.mem_map] at hc
    obtain ⟨p, hp, hp1⟩ := hc
    exact absurd (by rw [hp1]; exact beq_self_eq_true c) (hf p hp)
  | some p =>
    exact hinv p (List.mem_of_find?_eq_some hf)

/-- Looking up a present key of the airport targets succeeds. -/
theorem targetsGet_isSome (ts : List (String × AirportTarget)) (c : String)
    (hc : c ∈ ts.map Prod.fst) : (targetsGet ts c).isSome = true := by
  unfold targetsGet
  cases hf : ts.find? (fun p => p.1 == c) with
  | none =>
    rw [List.find?_eq_none] at hf
    rw [List.mem_map] at hc
    obtain ⟨p, hp, hp1⟩ := hc
    exact absurd (by rw [hp1]; exact beq_self_eq_true c) (hf p hp)
  | some p => rfl

/-- **C5**. For an aircraft batch drawn from the aircraft-group keys and an
airport batch drawn from the batchable target keys: a rate-limited batch
result causes zero fallback requests (the batch is skipped for the cycle),
while a truthy, non-rate-limited, parameter-shaped error causes exactly
`len(batch)` per-code fallback requests, one per code of the batch. -/
theorem c5_batch_fallback_ladder (subs : List Sub) (rd : ReferenceData)
    (asize psize : Nat) (batchA batchP : List String) (res : Fr24Response)
    (hA : batchA ∈ chunked ((buildAircraftGroups subs).map Prod.fst) asize)
    (hP : batchP ∈ chunked
      (batchableCodes (buildAirportTargets rd subs)) psize) :
    (res.rate_limited = true →
        fallbackCallsForBatch (buildAircraftGroups subs) batchA res = 0
        ∧ airportFallbackCallsForBatch (buildAirportTargets rd subs) batchP res
          = 0)
    ∧ (strTruthy res.error = true → res.rate_limited = false →
        isParamError res.error = true →
        fallbackCallsForBatch (buildAircraftGroups subs) batchA res
          = batchA.length
        ∧ airportFallbackCallsForBatch (buildAirportTargets rd subs) batchP res
          = batchP.length) := by
  constructor
  · intro hrl
    constructor
    · unfold fallbackCallsForBatch
      by_cases het : strTruthy res.error = true
      · rw [if_pos het, if_pos hrl]
      · rw [if_neg het]
    · unfold airportFallbackCallsForBatch
      by_cases het : strTruthy res.error = true
      · rw [if_pos het, if_pos hrl]
      · rw [if_neg het]
  · intro het hrl hpe
    constructor
    · unfold fallbackCallsForBatch
      rw [if_pos het, if_neg (by simp [hrl] : ¬ res.rate_limited = true),
        if_pos hpe]
      unfold aircraftFallbackCodes
      have hfe : batchA.filter
          (fun code => !(groupsGet (buildAircraftGroups subs) code).isEmpty)
          = batchA := by
        rw [List.filter_eq_self]
        intro c hc
        have hck := chunked_subset _ _ _ hA c hc
        have hne := groupsGet_ne_nil _ c (buildGroups_nonempty subs) hck
        cases hgl : groupsGet (buildAircraftGroups subs) c with
        | nil => exact absurd hgl hne
        | cons a t => rfl
      rw [hfe]
    · unfold airportFallbackCallsForBatch
      rw [if_pos het, if_neg (by simp [hrl] : ¬ res.rate_limited = true),
        if_pos hpe]
      unfold airportFallbackCodes
      have hfe : batchP.filter
          (fun code =>
            (targetsGet (buildAirportTargets rd subs) code).isSome)
          = batchP := by
        rw [List.filter_eq_self]
        intro c hc
        have hck := chunked_subset _ _ _ hP c hc
        unfold batchableCodes at hck
        exact targetsGet_isSome _ c (List.mem_of_mem_filter hck)
      rw [hfe]

/-- Witness for C5: one aircraft subscription for A320 plus one airport
subscription for LAX, a single-chunk batch on each side, and a
pydantic-shaped batch failure. -/
theorem c5_batch_fallback_ladder_witness :
    (["A320"] ∈ chunked
      ((buildAircraftGroups [oneSub, airportSub]).map Prod.fst) 1)
    ∧ (["LAX"] ∈ chunked
      (batchableCodes (buildAirportTargets noneRefData [oneSub, airportSub]))
      1)
    ∧ ((paramRes.rate_limited = true →
        fallbackCallsForBatch (buildAircraftGroups [oneSub, airportSub])
          ["A320"] paramRes = 0
        ∧ airportFallbackCallsForBatch
            (buildAirportTargets noneRefData [oneSub, airportSub])
            ["LAX"] paramRes = 0)
      ∧ (strTruthy paramRes.error = true → paramRes.rate_limited = false →
          isParamError paramRes.error = true →
          fallbackCallsForBatch (buildAircraftGroups [oneSub, airportSub])
            ["A320"] paramRes = (["A320"] : List String).length
          ∧ airportFallbackCallsForBatch
              (buildAirportTargets noneRefData [oneSub, airportSub])
              ["LAX"] paramRes = (["LAX"] : List String).length)) :=
  ⟨by decide, by decide,
    c5_batch_fallback_ladder [oneSub, airportSub] noneRefData 1 1
      ["A320"] ["LAX"] paramRes (by decide) (by decide)⟩

end FR24
